import Mathlib

/-!
Verification of the segregated-free-list dynamic memory allocator (mm.c)
of the CSAPP-Labs repository.

The allocator is shallowly embedded at byte level: the heap is a byte
memory `Nat → Nat` together with the brk pointer, the capacity of the
backing region, and the `heap_listp` global.  All C macros (GET, PUT,
PACK, HDRP, FTRP, NEXT_BLKP, PREV_BLKP, ABS2REL, REL2ABS, ...) and all
functions (mm_init, malloc, free, realloc, calloc, extend_heap,
coalesce, find_fit, place, insert_to_free_list, remove_from_free_list,
get_listp) are translated statement by statement.  `size_t` arithmetic
that can overflow is modelled with an explicit `% 2^64`; stored words
are 32 bits (the C code stores `unsigned int`).  Loops take an explicit
fuel argument; running out of fuel yields `none` (never a wrong value).
Pointers are plain addresses, with `0` playing the role of NULL; the
backing region starts at address `memBase > 0`, and a write below
`memBase` (e.g. through a null pointer) sets a `fault` flag.
-/

set_option maxRecDepth 1000000
set_option linter.unusedVariables false

namespace MM

/-- Start address of the backing memory region handed out by mem_sbrk.
Positive, so that address 0 can play the role of the C null pointer. -/
def memBase : Nat := 1024

/-- State of the allocator: byte memory, brk pointer, capacity of the
backing region (absolute limit for brk), the `heap_listp` global
(0 while uninitialized, like the C NULL), a counter of mem_sbrk
requests, and a fault flag set by writes below `memBase` (undefined
behaviour in C, e.g. writing through a null pointer). -/
structure Heap where
  mem : Nat → Nat
  brk : Nat
  cap : Nat
  heapListp : Nat
  sbrkCalls : Nat
  fault : Bool

/-- Read one byte of memory. -/
def getByte (h : Heap) (a : Nat) : Nat := h.mem a % 256

/-- Write one byte of memory; a write below the backing region
(in particular through a null pointer) sets the fault flag. -/
def putByte (h : Heap) (a v : Nat) : Heap :=
  { h with mem := fun x => if x = a then v % 256 else h.mem x,
           fault := h.fault || decide (a < memBase) }

/-- GET macro: read a 32-bit little-endian word at address p. -/
def getWord (h : Heap) (a : Nat) : Nat :=
  getByte h a + 256 * getByte h (a + 1) + 65536 * getByte h (a + 2) +
    16777216 * getByte h (a + 3)

/-- PUT macro: write a 32-bit little-endian word at address p
(the value is truncated to 32 bits, as by the C store of `unsigned int`). -/
def putWord (h : Heap) (a v : Nat) : Heap :=
  putByte (putByte (putByte (putByte h a v) (a + 1) (v / 256)) (a + 2)
    (v / 65536)) (a + 3) (v / 16777216)

/-- PACK macro: `(size) | (alloc)`. -/
def PACK (size alloc : Nat) : Nat := size ||| alloc

/-- GET_SIZE macro: `GET(p) & ~0x7`. -/
def GET_SIZE (h : Heap) (p : Nat) : Nat := getWord h p / 8 * 8

/-- GET_ALLOC macro: `GET(p) & 0x1`. -/
def GET_ALLOC (h : Heap) (p : Nat) : Nat := getWord h p % 2

/-- HDRP macro: `bp - WSIZE`. -/
def HDRP (bp : Nat) : Nat := bp - 4

/-- FTRP macro: `bp + GET_SIZE(HDRP(bp)) - DSIZE`. -/
def FTRP (h : Heap) (bp : Nat) : Nat := bp + GET_SIZE h (HDRP bp) - 8

/-- NEXT_BLKP macro: `bp + GET_SIZE(bp - WSIZE)`. -/
def NEXT_BLKP (h : Heap) (bp : Nat) : Nat := bp + GET_SIZE h (bp - 4)

/-- PREV_BLKP macro: `bp - GET_SIZE(bp - DSIZE)`. -/
def PREV_BLKP (h : Heap) (bp : Nat) : Nat := bp - GET_SIZE h (bp - 8)

/-- ABS2REL macro: a non-null absolute pointer becomes its offset from
`heap_listp`; NULL becomes 0.  (The C cast to `unsigned int` truncates
to 32 bits; the truncation also happens on store in `putWord`.) -/
def ABS2REL (h : Heap) (bp : Nat) : Nat :=
  if bp = 0 then 0 else (bp - h.heapListp) % 4294967296

/-- REL2ABS macro: a non-zero relative offset becomes an absolute
pointer; 0 becomes NULL. -/
def REL2ABS (h : Heap) (r : Nat) : Nat :=
  if r = 0 then 0 else h.heapListp + r

/-- PREDP macro: address of the predecessor field of a free block. -/
def PREDP (bp : Nat) : Nat := bp

/-- SUCCP macro: address of the successor field of a free block. -/
def SUCCP (bp : Nat) : Nat := bp + 4

/-- GET_PRED macro: predecessor block of a free block. -/
def GET_PRED (h : Heap) (bp : Nat) : Nat := REL2ABS h (getWord h (PREDP bp))

/-- GET_SUCC macro: successor block of a free block. -/
def GET_SUCC (h : Heap) (bp : Nat) : Nat := REL2ABS h (getWord h (SUCCP bp))

/-- GET_HEAD macro: head block of a size-class list. -/
def GET_HEAD (h : Heap) (headp : Nat) : Nat := REL2ABS h (getWord h headp)

/-- SET_HEAD macro. -/
def SET_HEAD (h : Heap) (headp next : Nat) : Heap :=
  putWord h headp (ABS2REL h next)

/-- SET_PRED macro. -/
def SET_PRED (h : Heap) (bp pred : Nat) : Heap :=
  putWord h (PREDP bp) (ABS2REL h pred)

/-- SET_SUCC macro. -/
def SET_SUCC (h : Heap) (bp succ : Nat) : Heap :=
  putWord h (SUCCP bp) (ABS2REL h succ)

/-- Size class of a block size, as computed by `get_listp` (14 classes
with upper bounds 8, 16, 24, 32, 64, 128, ..., 16384, infinity). -/
def classId (size : Nat) : Nat :=
  if size ≤ 8 then 0
  else if size ≤ 16 then 1
  else if size ≤ 24 then 2
  else if size ≤ 32 then 3
  else if size ≤ 64 then 4
  else if size ≤ 128 then 5
  else if size ≤ 256 then 6
  else if size ≤ 512 then 7
  else if size ≤ 1024 then 8
  else if size ≤ 2048 then 9
  else if size ≤ 4096 then 10
  else if size ≤ 8192 then 11
  else if size ≤ 16384 then 12
  else 13

/-- get_listp: address of the head slot of the size class of `size`:
`heap_listp + (class_id - CLASS_CNT - 2) * WSIZE` with CLASS_CNT = 14,
i.e. `heap_listp + 4 * class_id - 64`. -/
def get_listp (h : Heap) (size : Nat) : Nat :=
  h.heapListp + 4 * classId size - 64

/-- mem_sbrk of the backing region (memlib): returns the old brk and
advances brk by `incr` bytes, or signals exhaustion (C return value
`(void *)-1`, modelled as `none`) leaving brk unchanged.  The request
counter is incremented either way. -/
def mem_sbrk (h : Heap) (incr : Nat) : Option Nat × Heap :=
  let h' := { h with sbrkCalls := h.sbrkCalls + 1 }
  if h.brk + incr > h.cap then (none, h')
  else (some h.brk, { h' with brk := h.brk + incr })

/-- Scan loop of insert_to_free_list: starting from
`pred = headp, succ = GET_HEAD(headp)`, advance while
`succ && GET_SIZE(HDRP(succ)) < size`.  Returns the final
`(pred, succ)` pair; `none` when the fuel runs out. -/
def insertScan (h : Heap) (size : Nat) : Nat → Nat → Nat → Option (Nat × Nat)
  | 0, _, _ => none
  | fuel + 1, pred, succ =>
    if succ ≠ 0 ∧ GET_SIZE h (HDRP succ) < size then
      insertScan h size fuel succ (GET_SUCC h succ)
    else
      some (pred, succ)

/-- insert_to_free_list: insert the block into the (size-sorted) free
list of its size class; four linking cases as in the source. -/
def insert_to_free_list (fuel : Nat) (h : Heap) (bp : Nat) : Option Heap := do
  let size := GET_SIZE h (HDRP bp)
  let headp := get_listp h size
  let (pred, succ) ← insertScan h size fuel headp (GET_HEAD h headp)
  if pred = headp ∧ succ = 0 then
    -- Case 1: headp(pred) -> bp -> NULL(succ)
    let h := SET_HEAD h headp bp
    let h := SET_PRED h bp 0
    let h := SET_SUCC h bp 0
    return h
  else if pred = headp ∧ succ ≠ 0 then
    -- Case 2: headp(pred) -> bp -> succ
    let h := SET_HEAD h headp bp
    let h := SET_PRED h bp 0
    let h := SET_SUCC h bp succ
    let h := SET_PRED h succ bp
    return h
  else if pred ≠ headp ∧ succ = 0 then
    -- Case 3: pred -> bp -> NULL(succ)
    let h := SET_SUCC h pred bp
    let h := SET_PRED h bp pred
    let h := SET_SUCC h bp succ
    return h
  else
    -- Case 4: pred -> bp -> succ
    let h := SET_SUCC h pred bp
    let h := SET_PRED h bp pred
    let h := SET_SUCC h bp succ
    let h := SET_PRED h succ bp
    return h

/-- remove_from_free_list: unlink the block from the free list of its
size class; four cases as in the source. -/
def remove_from_free_list (h : Heap) (bp : Nat) : Heap :=
  let size := GET_SIZE h (HDRP bp)
  let headp := get_listp h size
  let pred := GET_PRED h bp
  let succ := GET_SUCC h bp
  if pred = 0 ∧ succ = 0 then
    -- Case 1: head(pred) -> bp -> NULL(succ)
    SET_HEAD h headp 0
  else if pred = 0 ∧ succ ≠ 0 then
    -- Case 2: head(pred) -> bp -> succ
    let h := SET_HEAD h headp succ
    SET_PRED h succ 0
  else if pred ≠ 0 ∧ succ = 0 then
    -- Case 3: pred -> bp -> NULL(succ)
    SET_SUCC h pred 0
  else
    -- Case 4: pred -> bp -> succ
    let h := SET_SUCC h pred succ
    SET_PRED h succ pred

/-- coalesce: merge the block at bp with its free physical neighbours;
the four cases of the source, each statement translated in order
(addresses such as FTRP and PREV_BLKP are recomputed from the current
heap exactly where the C macros reread memory). -/
def coalesce (fuel : Nat) (h : Heap) (bp : Nat) : Option (Nat × Heap) := do
  let prev_alloc := GET_ALLOC h (HDRP (PREV_BLKP h bp))
  let next_alloc := GET_ALLOC h (HDRP (NEXT_BLKP h bp))
  let size := GET_SIZE h (HDRP bp)
  let prev_bp := PREV_BLKP h bp
  let next_bp := NEXT_BLKP h bp
  if prev_alloc ≠ 0 ∧ next_alloc ≠ 0 then
    -- Case 1
    return (bp, h)
  else if prev_alloc ≠ 0 ∧ next_alloc = 0 then
    -- Case 2
    let h := remove_from_free_list h bp
    let h := remove_from_free_list h next_bp
    let size := size + GET_SIZE h (HDRP (NEXT_BLKP h bp))
    let h := putWord h (HDRP bp) (PACK size 0)
    let h := putWord h (FTRP h bp) (PACK size 0)
    let h ← insert_to_free_list fuel h bp
    return (bp, h)
  else if prev_alloc = 0 ∧ next_alloc ≠ 0 then
    -- Case 3
    let h := remove_from_free_list h bp
    let h := remove_from_free_list h prev_bp
    let size := size + GET_SIZE h (HDRP (PREV_BLKP h bp))
    let h := putWord h (HDRP (PREV_BLKP h bp)) (PACK size 0)
    let h := putWord h (FTRP h bp) (PACK size 0)
    let bp := PREV_BLKP h bp
    let h ← insert_to_free_list fuel h bp
    return (bp, h)
  else
    -- Case 4
    let h := remove_from_free_list h prev_bp
    let h := remove_from_free_list h bp
    let h := remove_from_free_list h next_bp
    let size := size + GET_SIZE h (HDRP (PREV_BLKP h bp)) +
      GET_SIZE h (HDRP (NEXT_BLKP h bp))
    let h := putWord h (HDRP (PREV_BLKP h bp)) (PACK size 0)
    let h := putWord h (FTRP h (NEXT_BLKP h bp)) (PACK size 0)
    let bp := PREV_BLKP h bp
    let h ← insert_to_free_list fuel h bp
    return (bp, h)

/-- Inner loop of find_fit: walk one class list, returning the first
block whose size is at least asize (0 when the list is exhausted);
`none` when the fuel runs out. -/
def findFitInner (h : Heap) (asize : Nat) : Nat → Nat → Option Nat
  | 0, _ => none
  | fuel + 1, bp =>
    if bp = 0 then some 0
    else if asize ≤ GET_SIZE h (HDRP bp) then some bp
    else findFitInner h asize fuel (GET_SUCC h bp)

/-- Outer loop of find_fit: walk the head slots from `headp` up to
`list_headp_end = heap_listp - 2 * WSIZE`, trying each class list. -/
def findFitOuter (h : Heap) (asize endp : Nat) : Nat → Nat → Option Nat
  | 0, _ => none
  | fuel + 1, headp =>
    if headp = endp then some 0
    else do
      let r ← findFitInner h asize (fuel + 1) (GET_HEAD h headp)
      if r ≠ 0 then some r
      else findFitOuter h asize endp fuel (headp + 4)

/-- find_fit: search the free lists, starting at the class of asize and
scanning classes upward; result 0 means no fit. -/
def find_fit (fuel : Nat) (h : Heap) (asize : Nat) : Option Nat :=
  findFitOuter h asize (h.heapListp - 8) fuel (get_listp h asize)

/-- place: remove the chosen block from its free list, then either
split it (when the remainder is at least 2 * DSIZE = 16 bytes) or
allocate it whole. -/
def place (fuel : Nat) (h : Heap) (bp asize : Nat) : Option (Nat × Heap) := do
  let csize := GET_SIZE h (HDRP bp)
  let h := remove_from_free_list h bp
  if 16 ≤ csize - asize then
    let h := putWord h (HDRP bp) (PACK asize 1)
    let h := putWord h (FTRP h bp) (PACK asize 1)
    let free_bp := NEXT_BLKP h bp
    let h := putWord h (HDRP free_bp) (PACK (csize - asize) 0)
    let h := putWord h (FTRP h free_bp) (PACK (csize - asize) 0)
    let h ← insert_to_free_list fuel h free_bp
    return (bp, h)
  else
    let h := putWord h (HDRP bp) (PACK csize 1)
    let h := putWord h (FTRP h bp) (PACK csize 1)
    return (bp, h)

/-- extend_heap: request `words` words (rounded up to an even count)
from the backing region; on success initialize the new free block and
the new epilogue header, insert the block into its free list and
coalesce with the previous block.  Result pointer 0 models the C NULL
returned on exhaustion. -/
def extend_heap (fuel : Nat) (h : Heap) (words : Nat) :
    Option (Nat × Heap) := do
  let size := if words % 2 = 1 then (words + 1) * 4 else words * 4
  match mem_sbrk h size with
  | (none, h) => return (0, h)
  | (some bp, h) =>
    let h := putWord h (HDRP bp) (PACK size 0)
    let h := putWord h (FTRP h bp) (PACK size 0)
    let h := SET_PRED h bp 0
    let h := SET_SUCC h bp 0
    let h := putWord h (HDRP (NEXT_BLKP h bp)) (PACK 0 1)
    let h ← insert_to_free_list fuel h bp
    coalesce fuel h bp

/-- Head-initialization loop of mm_init: set `n` consecutive head
slots (starting at address p) to NULL. -/
def setHeads (h : Heap) : Nat → Nat → Heap
  | _, 0 => h
  | p, n + 1 => setHeads (putWord h p 0) (p + 4) n

/-- mm_init: allocate the initial region (14 head words, padding,
prologue, epilogue), then extend the heap by CHUNKSIZE = 256 bytes.
`false` models the C return value -1. -/
def mm_init (fuel : Nat) (h : Heap) : Option (Bool × Heap) := do
  match mem_sbrk h 72 with
  | (none, h) => return (false, h)
  | (some base, h) =>
    let h := setHeads h base 14
    let h := putWord h (base + 56) 0
    let h := putWord h (base + 60) (PACK 8 1)
    let h := putWord h (base + 64) (PACK 8 1)
    let h := putWord h (base + 68) (PACK 0 1)
    let h := { h with heapListp := base + 64 }
    match ← extend_heap fuel h 64 with
    | (0, h) => return (false, h)
    | (_, h) => return (true, h)

/-- Adjusted block size computed by malloc: `2 * DSIZE` for requests of
at most DSIZE bytes, otherwise `DSIZE * ((size + DSIZE + DSIZE-1) / DSIZE)`
in `size_t` (64-bit) arithmetic, whose addition can wrap around. -/
def asizeOf (size : Nat) : Nat :=
  if size ≤ 8 then 16
  else 8 * ((size + 15) % 18446744073709551616 / 8)

/-- malloc: adjust the request, search the free lists, extend the heap
when there is no fit, and place the block.  Result pointer 0 models
the C NULL. -/
def mm_malloc (fuel : Nat) (h : Heap) (size : Nat) : Option (Nat × Heap) := do
  if size = 0 then return (0, h)
  else
    let asize := asizeOf size
    let bp ← find_fit fuel h asize
    if bp ≠ 0 then
      place fuel h bp asize
    else
      let extendsize := max asize 256
      match ← extend_heap fuel h (extendsize / 4) with
      | (0, h) => return (0, h)
      | (bp, h) => place fuel h bp asize

/-- free: clear the allocated bit of header and footer, clear the link
fields, insert into the size class list and coalesce.  A null pointer
is a no-op; a null `heap_listp` triggers mm_init as in the source. -/
def mm_free (fuel : Nat) (h : Heap) (bp : Nat) : Option Heap := do
  if bp = 0 then return h
  else
    let size := GET_SIZE h (HDRP bp)
    let h ← if h.heapListp = 0 then do
        let (_, h) ← mm_init fuel h
        pure h
      else pure h
    let h := putWord h (HDRP bp) (PACK size 0)
    let h := putWord h (FTRP h bp) (PACK size 0)
    let h := SET_PRED h bp 0
    let h := SET_SUCC h bp 0
    let h ← insert_to_free_list fuel h bp
    let (_, h) ← coalesce fuel h bp
    return h

/-- Byte-by-byte memcpy (the copied regions of realloc never overlap
in well-formed states, where this agrees with the C memcpy). -/
def memcpyBytes (h : Heap) (dst src : Nat) : Nat → Heap
  | 0 => h
  | n + 1 => memcpyBytes (putByte h dst (getByte h src)) (dst + 1) (src + 1) n

/-- Byte-by-byte memset to zero. -/
def memsetZero (h : Heap) (dst : Nat) : Nat → Heap
  | 0 => h
  | n + 1 => memsetZero (putByte h dst 0) (dst + 1) n

/-- realloc: size 0 frees; null pointer mallocs; otherwise malloc a new
block, on failure return NULL leaving the original untouched, on
success copy `min(size, GET_SIZE(HDRP(oldptr)))` bytes, free the old
block and return the new pointer. -/
def mm_realloc (fuel : Nat) (h : Heap) (oldptr size : Nat) :
    Option (Nat × Heap) := do
  if size = 0 then
    let h ← mm_free fuel h oldptr
    return (0, h)
  else if oldptr = 0 then
    mm_malloc fuel h size
  else
    match ← mm_malloc fuel h size with
    | (0, h) => return (0, h)
    | (newptr, h) =>
      let oldsize := GET_SIZE h (HDRP oldptr)
      let oldsize := if size < oldsize then size else oldsize
      let h := memcpyBytes h newptr oldptr oldsize
      let h ← mm_free fuel h oldptr
      return (newptr, h)

/-- calloc: `bytes = nmemb * size` in `size_t` arithmetic, malloc, then
memset the whole region to zero — with no check of the malloc result,
exactly as in the source (on failure the C code calls
`memset(NULL, 0, bytes)`). -/
def mm_calloc (fuel : Nat) (h : Heap) (nmemb size : Nat) :
    Option (Nat × Heap) := do
  let bytes := nmemb * size % 18446744073709551616
  match ← mm_malloc fuel h bytes with
  | (newptr, h) =>
    let h := memsetZero h newptr bytes
    return (newptr, h)

/-!
Concrete execution harness.  `startHeap` is the allocator state before
`mm_init`: uninitialized backing memory filled with the byte 170 (the
collaborator contract leaves fresh memory unspecified, so any visible
170 was never written by the allocator), brk at `memBase`, and a given
capacity of the backing region.
-/

/-- Contents of the backing memory before the allocator runs. -/
def mem0 : Nat → Nat := fun _ => 170

/-- Allocator state before mm_init, with `cap` bytes of backing region. -/
def startHeap (cap : Nat) : Heap :=
  { mem := mem0, brk := memBase, cap := memBase + cap,
    heapListp := 0, sbrkCalls := 0, fault := false }

/-- Fuel bound used by the concrete executions below (every loop in
these runs takes far fewer iterations). -/
def FUEL : Nat := 200

/-- Run mm_init on a fresh state; `none` when initialization fails. -/
def initRun (cap : Nat) : Option Heap := do
  let (ok, h) ← mm_init FUEL (startHeap cap)
  if ok then some h else none

/-- Write a list of bytes at consecutive addresses (a client storing a
pattern into its payload). -/
def writeBytes (h : Heap) (a : Nat) : List Nat → Heap
  | [] => h
  | v :: vs => writeBytes (putByte h a v) (a + 1) vs

/-- Read `n` bytes starting at address `a`. -/
def readBytes (h : Heap) (a n : Nat) : List Nat :=
  (List.range n).map fun i => getByte h (a + i)

/-- A 100-byte test pattern. -/
def pattern100 : List Nat := (List.range 100).map fun i => (3 * i + 7) % 256

/-- roundUp8 from the spec: round up to the next multiple of 8. -/
def roundUp8 (n : Nat) : Nat := 8 * ((n + 7) / 8)

/-- Modelled from the spec (§4.4, claim C1): a reallocate that copies
`min(oldPayloadSize, size)` bytes, where the payload of a block of
total size s is s - 8 bytes (header and footer overhead).  Identical
to `mm_realloc` except for the copy length; used only to compare the
spec sentence against the code, which copies
`min(GET_SIZE(HDRP(oldptr)), size)` bytes, i.e. uses the full block
size including the 8 bytes of overhead. -/
def realloc_specCopy (fuel : Nat) (h : Heap) (oldptr size : Nat) :
    Option (Nat × Heap) := do
  if size = 0 then
    let h ← mm_free fuel h oldptr
    return (0, h)
  else if oldptr = 0 then
    mm_malloc fuel h size
  else
    match ← mm_malloc fuel h size with
    | (0, h) => return (0, h)
    | (newptr, h) =>
      let oldPayload := GET_SIZE h (HDRP oldptr) - 8
      let n := if size < oldPayload then size else oldPayload
      let h := memcpyBytes h newptr oldptr n
      let h ← mm_free fuel h oldptr
      return (newptr, h)

/-- Scenario of claim C1: p = allocate(100); write pattern100;
q = reallocate(p, 200).  Returns (p, q, final heap). -/
def reallocScenario : Option (Nat × Nat × Heap) := do
  let h ← initRun 100000
  let (p, h) ← mm_malloc FUEL h 100
  let h := writeBytes h p pattern100
  let (q, h) ← mm_realloc FUEL h p 200
  return (p, q, h)

/-- Small realloc run used to compare copy lengths: p = allocate(8)
(block size 16, payload 8), write 8 known bytes, reallocate(p, 24),
executed by the given reallocate implementation. -/
def reallocSmall (re : Nat → Heap → Nat → Nat → Option (Nat × Heap)) :
    Option (Nat × Heap) := do
  let h ← initRun 100000
  let (p, h) ← mm_malloc FUEL h 8
  let h := writeBytes h p [1, 2, 3, 4, 5, 6, 7, 8]
  re FUEL h p 24

/-- Exhaustion run: capacity 328 bytes is fully consumed by mm_init
(72 bytes of bookkeeping + 256-byte chunk); allocate(248) then takes
the whole 256-byte free block, so any further growth request fails. -/
def fullHeap : Option Heap := do
  let h ← initRun 328
  let (a, h) ← mm_malloc FUEL h 248
  if a = 0 then none else some h

/-- allocate(80) on the exhausted heap (fails cleanly). -/
def mallocExhaustRun : Option (Nat × Heap) := do
  let h ← fullHeap
  mm_malloc FUEL h 80

/-- reallocate(1096, 2000) on the exhausted heap (fails cleanly;
1096 is the pointer returned by allocate(248)). -/
def reallocExhaustRun : Option (Nat × Heap) := do
  let h ← fullHeap
  mm_realloc FUEL h 1096 2000

/-- allocateZeroed(10, 8) on the exhausted heap (the interesting case
of claims C2 and C6: malloc fails and calloc calls memset(NULL, 0, 80)). -/
def callocExhaustRun : Option (Nat × Heap) := do
  let h ← fullHeap
  mm_calloc FUEL h 10 8

/-- Requested size whose `size + DSIZE + (DSIZE-1)` wraps around in
64-bit size_t arithmetic: 2^64 - 8. -/
def bigSize : Nat := 18446744073709551608

/-- Overflow run for claim C3: init, then allocate(2^64 - 8). -/
def overflowRun : Option (Nat × Heap) := do
  let h ← initRun 100000
  mm_malloc FUEL h bigSize

/-- Overflow run for claim C4: three 16-byte allocations, release the
middle one, allocate(2^64 - 8) (which returns the middle block b while
leaving it marked free), then release that pointer again. -/
def overflowFreeRun : Option (Nat × Heap) := do
  let h ← initRun 100000
  let (_, h) ← mm_malloc FUEL h 16
  let (b, h) ← mm_malloc FUEL h 16
  let (_, h) ← mm_malloc FUEL h 16
  let h ← mm_free FUEL h b
  let (x, h) ← mm_malloc FUEL h bigSize
  let h ← mm_free FUEL h x
  return (x, h)

/-- Overflow run for claim C10: as in `overflowFreeRun` but with an
extra free 40-byte block y so that the block freed last is merged into
size class 4 behind y, while the stale head slot of class 2 still
names it. -/
def overflowLinkRun : Option (Nat × Nat × Heap) := do
  let h ← initRun 100000
  let (_, h) ← mm_malloc FUEL h 16
  let (b, h) ← mm_malloc FUEL h 16
  let (_, h) ← mm_malloc FUEL h 16
  let (y, h) ← mm_malloc FUEL h 32
  let (_, h) ← mm_malloc FUEL h 16
  let h ← mm_free FUEL h y
  let h ← mm_free FUEL h b
  let (x, h) ← mm_malloc FUEL h bigSize
  let h ← mm_free FUEL h x
  return (x, y, h)

/-- Reuse scenario of claim C9: a = allocate(16); b = allocate(16);
release(a); c = allocate(16).  Returns (a, b, c, sbrk request count). -/
def reuseRun : Option (Nat × Nat × Nat × Nat) := do
  let h ← initRun 100000
  let (a, h) ← mm_malloc FUEL h 16
  let (b, h) ← mm_malloc FUEL h 16
  let h ← mm_free FUEL h a
  let (c, h) ← mm_malloc FUEL h 16
  return (a, b, c, h.sbrkCalls)

/-- Class-skip run of claim C7: allocate(32) creates a 40-byte block
in class 4 and allocate(16) an allocated separator after it; releasing
the first block puts the lone 40-byte block into class 4; find_fit for
adjusted size 64 (also class 4) must skip the non-empty class 4 (its
only block, size 40, does not fit) and answer from class 6. -/
def classSkipRun : Option (Nat × Nat × Heap) := do
  let h ← initRun 100000
  let (a, h) ← mm_malloc FUEL h 32
  let (_, h) ← mm_malloc FUEL h 16
  let h ← mm_free FUEL h a
  let d ← find_fit FUEL h (asizeOf 56)
  return (a, d, h)

/-!
Free-list chain abstraction, used to state and prove the general
theorems about find_fit, insert_to_free_list, remove_from_free_list
and place.  A chain is the list of block pointers obtained by
following successor links; all predicates are Boolean so that concrete
instances can be checked by evaluation.
-/

/-- chainSegB h l bp stop: following successor links from bp visits
exactly the (non-null) nodes of l and then reaches stop. -/
def chainSegB (h : Heap) : List Nat → Nat → Nat → Bool
  | [], bp, stop => bp == stop
  | x :: xs, bp, stop =>
    bp == x && !(x == 0) && chainSegB h xs (GET_SUCC h x) stop

/-- chainB h l bp: following successor links from bp visits exactly
the nodes of l and ends at NULL. -/
def chainB (h : Heap) (l : List Nat) (bp : Nat) : Bool := chainSegB h l bp 0

/-- dualSegB h l prev: along l, every node's predecessor field names
the node before it (prev before the first). -/
def dualSegB (h : Heap) : List Nat → Nat → Bool
  | [], _ => true
  | x :: xs, prev => (GET_PRED h x == prev) && dualSegB h xs x

/-- Block sizes are nondecreasing along the list. -/
def sortedSizesB (h : Heap) : List Nat → Bool
  | [] => true
  | [_] => true
  | x :: y :: xs =>
    decide (GET_SIZE h (HDRP x) ≤ GET_SIZE h (HDRP y)) &&
      sortedSizesB h (y :: xs)

/-- First node of l whose block size is at least asize (0 if none) —
the value the find_fit scan of one class list produces. -/
def firstFit (h : Heap) (asize : Nat) : List Nat → Nat
  | [] => 0
  | x :: xs => if asize ≤ GET_SIZE h (HDRP x) then x else firstFit h asize xs

/-- Concatenation of the class chains L c, L (c+1), ..., L (c+k-1). -/
def concatFrom (L : Nat → List Nat) : Nat → Nat → List Nat
  | _, 0 => []
  | c, k + 1 => L c ++ concatFrom L (c + 1) k

/-- Address of the head slot of class c (get_listp h size is
headSlot h (classId size)). -/
def headSlot (h : Heap) (c : Nat) : Nat := h.heapListp + 4 * c - 64

/-- A plausible free-list node: strictly inside the heap (so ≠ NULL,
above every head slot, and with a representable 32-bit offset). -/
def goodNodeB (h : Heap) (x : Nat) : Bool :=
  decide (h.heapListp + 8 ≤ x) && decide (x - h.heapListp < 4294967296)

/-- Two node addresses are far enough apart that their header and
link-field words cannot overlap (real blocks are ≥ 16 bytes apart). -/
def farB (x y : Nat) : Bool := decide (x + 12 ≤ y) || decide (y + 12 ≤ x)

/-- Every node is plausible and all nodes are pairwise far apart. -/
def nodesOkB (h : Heap) : List Nat → Bool
  | [] => true
  | x :: xs => goodNodeB h x && xs.all (farB x) && nodesOkB h xs

/-- Functional description of the insert scan: starting with a given
pred, walk l while the node size is below s; returns the final
(pred, succ) pair, succ = 0 when the list is exhausted. -/
def scanSplit (h : Heap) (s : Nat) (pred : Nat) : List Nat → Nat × Nat
  | [] => (pred, 0)
  | x :: xs =>
    if GET_SIZE h (HDRP x) < s then scanSplit h s x xs else (pred, x)

/-- First element of l, or d when l is empty. -/
def entryOf (l : List Nat) (d : Nat) : Nat :=
  match l with
  | [] => d
  | x :: _ => x

/-- Last element of l, or d when l is empty. -/
def lastOf (l : List Nat) (d : Nat) : Nat :=
  match l with
  | [] => d
  | x :: xs => lastOf xs x

/-- Concrete heap used to instantiate the general theorems: the state
right after a successful mm_init (capacity 100000). -/
def witnessHeap : Heap :=
  match initRun 100000 with
  | some h => h
  | none => startHeap 0

/-- Class chains of `witnessHeap`: the single 256-byte chunk at 1096
sits in class 6, every other class is empty. -/
def witnessL : Nat → List Nat := fun i => if i = 6 then [1096] else []

/-- `witnessHeap` with one extra block header (size 24, free) written
at address 2000, making 2004 a plausible block pointer outside every
free list. -/
def witnessHeap2 : Heap := putWord witnessHeap 2000 24

/-!
Word-level read/write lemmas.
-/

@[simp]
theorem putByte_brk (h : Heap) (a v : Nat) : (putByte h a v).brk = h.brk := rfl

@[simp]
theorem putByte_heapListp (h : Heap) (a v : Nat) :
    (putByte h a v).heapListp = h.heapListp := rfl

@[simp]
theorem putByte_cap (h : Heap) (a v : Nat) : (putByte h a v).cap = h.cap := rfl

@[simp]
theorem putByte_sbrkCalls (h : Heap) (a v : Nat) :
    (putByte h a v).sbrkCalls = h.sbrkCalls := rfl

@[simp]
theorem putWord_brk (h : Heap) (a v : Nat) : (putWord h a v).brk = h.brk := rfl

@[simp]
theorem putWord_heapListp (h : Heap) (a v : Nat) :
    (putWord h a v).heapListp = h.heapListp := rfl

@[simp]
theorem putWord_cap (h : Heap) (a v : Nat) : (putWord h a v).cap = h.cap := rfl

@[simp]
theorem putWord_sbrkCalls (h : Heap) (a v : Nat) :
    (putWord h a v).sbrkCalls = h.sbrkCalls := rfl

theorem getByte_putByte_self (h : Heap) (a v : Nat) :
    getByte (putByte h a v) a = v % 256 := by
  simp [getByte, putByte]

theorem getByte_putByte_of_ne (h : Heap) (a v c : Nat) (hne : c ≠ a) :
    getByte (putByte h a v) c = getByte h c := by
  simp [getByte, putByte, hne]

theorem getByte_putWord_of_out (h : Heap) (a v c : Nat)
    (hc : c < a ∨ a + 4 ≤ c) :
    getByte (putWord h a v) c = getByte h c := by
  unfold putWord
  rw [getByte_putByte_of_ne _ _ _ _ (by omega),
    getByte_putByte_of_ne _ _ _ _ (by omega),
    getByte_putByte_of_ne _ _ _ _ (by omega),
    getByte_putByte_of_ne _ _ _ _ (by omega)]

theorem getByte_putWord_0 (h : Heap) (a v : Nat) :
    getByte (putWord h a v) a = v % 256 := by
  unfold putWord
  rw [getByte_putByte_of_ne _ _ _ _ (by omega),
    getByte_putByte_of_ne _ _ _ _ (by omega),
    getByte_putByte_of_ne _ _ _ _ (by omega), getByte_putByte_self]

theorem getByte_putWord_1 (h : Heap) (a v : Nat) :
    getByte (putWord h a v) (a + 1) = v / 256 % 256 := by
  unfold putWord
  rw [getByte_putByte_of_ne _ _ _ _ (by omega),
    getByte_putByte_of_ne _ _ _ _ (by omega), getByte_putByte_self]

theorem getByte_putWord_2 (h : Heap) (a v : Nat) :
    getByte (putWord h a v) (a + 2) = v / 65536 % 256 := by
  unfold putWord
  rw [getByte_putByte_of_ne _ _ _ _ (by omega), getByte_putByte_self]

theorem getByte_putWord_3 (h : Heap) (a v : Nat) :
    getByte (putWord h a v) (a + 3) = v / 16777216 % 256 := by
  unfold putWord
  rw [getByte_putByte_self]

theorem getWord_putWord_self (h : Heap) (a v : Nat) :
    getWord (putWord h a v) a = v % 4294967296 := by
  unfold getWord
  rw [getByte_putWord_0, getByte_putWord_1, getByte_putWord_2,
    getByte_putWord_3]
  omega

theorem getWord_putWord_of_far (h : Heap) (a v b : Nat)
    (hd : b + 4 ≤ a ∨ a + 4 ≤ b) :
    getWord (putWord h a v) b = getWord h b := by
  unfold getWord
  rw [getByte_putWord_of_out _ _ _ _ (by omega),
    getByte_putWord_of_out _ _ _ _ (by omega),
    getByte_putWord_of_out _ _ _ _ (by omega),
    getByte_putWord_of_out _ _ _ _ (by omega)]

theorem lor_zero_eq (a : Nat) : a ||| 0 = a := by simp

theorem lor_one_of_mod8 (a : Nat) (h8 : a % 8 = 0) : a ||| 1 = a + 1 := by
  obtain ⟨k, rfl⟩ : ∃ k, a = 8 * k := ⟨a / 8, by omega⟩
  have h1 : (8 * k) = Nat.bit false (4 * k) := by simp [Nat.bit]; ring
  have h2 : (1 : Nat) = Nat.bit true 0 := by simp [Nat.bit]
  rw [h1, h2, Nat.lor_bit]
  simp [Nat.bit]

/-!
Offset-pointer and frame lemmas.
-/

theorem rel2abs_abs2rel (h h' : Heap) (hl : h'.heapListp = h.heapListp)
    (x : Nat)
    (hb : x = 0 ∨ (h.heapListp < x ∧ x - h.heapListp < 4294967296)) :
    REL2ABS h' (ABS2REL h x) = x := by
  rcases hb with rfl | ⟨h1, h2⟩
  · simp [REL2ABS, ABS2REL]
  · unfold ABS2REL
    rw [if_neg (show ¬ x = 0 by omega), Nat.mod_eq_of_lt h2]
    unfold REL2ABS
    rw [if_neg (show ¬ x - h.heapListp = 0 by omega), hl]
    omega

theorem abs2rel_lt (h : Heap) (x : Nat) : ABS2REL h x < 4294967296 := by
  unfold ABS2REL
  split
  · omega
  · exact Nat.mod_lt _ (by omega)

theorem GET_SUCC_putWord_of_far (h : Heap) (a v y : Nat)
    (hf : y + 8 ≤ a ∨ a + 4 ≤ y + 4) :
    GET_SUCC (putWord h a v) y = GET_SUCC h y := by
  unfold GET_SUCC REL2ABS SUCCP
  rw [getWord_putWord_of_far _ _ _ _ (by omega), putWord_heapListp]

theorem GET_PRED_putWord_of_far (h : Heap) (a v y : Nat)
    (hf : y + 4 ≤ a ∨ a + 4 ≤ y) :
    GET_PRED (putWord h a v) y = GET_PRED h y := by
  unfold GET_PRED REL2ABS PREDP
  rw [getWord_putWord_of_far _ _ _ _ (by omega), putWord_heapListp]

theorem GET_SIZE_putWord_of_far (h : Heap) (a v p : Nat)
    (hf : p + 4 ≤ a ∨ a + 4 ≤ p) :
    GET_SIZE (putWord h a v) p = GET_SIZE h p := by
  unfold GET_SIZE
  rw [getWord_putWord_of_far _ _ _ _ (by omega)]

theorem GET_ALLOC_putWord_of_far (h : Heap) (a v p : Nat)
    (hf : p + 4 ≤ a ∨ a + 4 ≤ p) :
    GET_ALLOC (putWord h a v) p = GET_ALLOC h p := by
  unfold GET_ALLOC
  rw [getWord_putWord_of_far _ _ _ _ (by omega)]

theorem GET_HEAD_putWord_of_far (h : Heap) (a v p : Nat)
    (hf : p + 4 ≤ a ∨ a + 4 ≤ p) :
    GET_HEAD (putWord h a v) p = GET_HEAD h p := by
  unfold GET_HEAD REL2ABS
  rw [getWord_putWord_of_far _ _ _ _ (by omega), putWord_heapListp]

/-!
Chain lemmas.
-/

theorem chainSegB_nil_iff (h : Heap) (bp stop : Nat) :
    chainSegB h [] bp stop = true ↔ bp = stop := by
  simp [chainSegB]

theorem chainSegB_cons_iff (h : Heap) (x : Nat) (xs : List Nat)
    (bp stop : Nat) :
    chainSegB h (x :: xs) bp stop = true ↔
      bp = x ∧ x ≠ 0 ∧ chainSegB h xs (GET_SUCC h x) stop = true := by
  simp [chainSegB, Bool.and_eq_true, beq_iff_eq, Bool.not_eq_true',
    beq_eq_false_iff_ne, and_assoc]

theorem dualSegB_cons_iff (h : Heap) (x : Nat) (xs : List Nat)
    (prev : Nat) :
    dualSegB h (x :: xs) prev = true ↔
      GET_PRED h x = prev ∧ dualSegB h xs x = true := by
  simp [dualSegB, Bool.and_eq_true, beq_iff_eq]

theorem chainSegB_congr (h h' : Heap) (l : List Nat) (bp stop : Nat)
    (hs : ∀ y ∈ l, GET_SUCC h' y = GET_SUCC h y) :
    chainSegB h' l bp stop = chainSegB h l bp stop := by
  induction l generalizing bp with
  | nil => rfl
  | cons x xs ih =>
    simp only [chainSegB]
    rw [hs x (by simp), ih (GET_SUCC h x) fun y hy => hs y (by simp [hy])]

theorem dualSegB_congr (h h' : Heap) (l : List Nat) (prev : Nat)
    (hp : ∀ y ∈ l, GET_PRED h' y = GET_PRED h y) :
    dualSegB h' l prev = dualSegB h l prev := by
  induction l generalizing prev with
  | nil => rfl
  | cons x xs ih =>
    simp only [dualSegB]
    rw [hp x (by simp), ih x fun y hy => hp y (by simp [hy])]

theorem sortedSizesB_congr (h h' : Heap) (l : List Nat)
    (hs : ∀ y ∈ l, GET_SIZE h' (HDRP y) = GET_SIZE h (HDRP y)) :
    sortedSizesB h' l = sortedSizesB h l := by
  induction l with
  | nil => rfl
  | cons x xs ih =>
    cases xs with
    | nil => rfl
    | cons y ys =>
      simp only [sortedSizesB]
      rw [hs x (by simp), hs y (by simp),
        ih fun z hz => hs z (by simp at hz ⊢; tauto)]

theorem chainSegB_append (h : Heap) (l1 l2 : List Nat) (e m s : Nat)
    (h1 : chainSegB h l1 e m = true) (h2 : chainSegB h l2 m s = true) :
    chainSegB h (l1 ++ l2) e s = true := by
  induction l1 generalizing e with
  | nil =>
    simp only [chainSegB, beq_iff_eq] at h1
    simpa [h1] using h2
  | cons x xs ih =>
    simp only [chainSegB, Bool.and_eq_true] at h1 ⊢
    exact ⟨h1.1, ih (GET_SUCC h x) h1.2⟩

theorem chainSegB_split (h : Heap) (l1 l2 : List Nat) (e s : Nat)
    (hc : chainSegB h (l1 ++ l2) e s = true) :
    chainSegB h l1 e (entryOf l2 s) = true ∧
      chainSegB h l2 (entryOf l2 s) s = true := by
  induction l1 generalizing e with
  | nil =>
    simp only [List.nil_append] at hc
    cases l2 with
    | nil =>
      have he : e = s := (chainSegB_nil_iff h e s).mp hc
      constructor
      · show chainSegB h [] e s = true
        rw [chainSegB_nil_iff]; exact he
      · show chainSegB h [] s s = true
        rw [chainSegB_nil_iff]
    | cons x xs =>
      rw [chainSegB_cons_iff] at hc
      obtain ⟨he, hx0, hrest⟩ := hc
      constructor
      · show chainSegB h [] e x = true
        rw [chainSegB_nil_iff]; exact he
      · show chainSegB h (x :: xs) x s = true
        rw [chainSegB_cons_iff]
        exact ⟨rfl, hx0, hrest⟩
  | cons x xs ih =>
    rw [List.cons_append, chainSegB_cons_iff] at hc
    obtain ⟨he, hx0, hrest⟩ := hc
    obtain ⟨ha, hb⟩ := ih (GET_SUCC h x) hrest
    exact ⟨(chainSegB_cons_iff h x xs e (entryOf l2 s)).mpr ⟨he, hx0, ha⟩,
      hb⟩

theorem chainSegB_ne_zero (h : Heap) (l : List Nat) (e s : Nat)
    (hc : chainSegB h l e s = true) : ∀ y ∈ l, y ≠ 0 := by
  induction l generalizing e with
  | nil => simp
  | cons x xs ih =>
    rw [chainSegB_cons_iff] at hc
    obtain ⟨he, hx0, hrest⟩ := hc
    intro y hy
    rcases List.mem_cons.mp hy with rfl | hy
    · exact hx0
    · exact ih (GET_SUCC h x) hrest y hy

theorem dualSegB_append (h : Heap) (l1 l2 : List Nat) (prev : Nat)
    (h1 : dualSegB h l1 prev = true)
    (h2 : dualSegB h l2 (lastOf l1 prev) = true) :
    dualSegB h (l1 ++ l2) prev = true := by
  induction l1 generalizing prev with
  | nil => simpa [lastOf] using h2
  | cons x xs ih =>
    simp only [dualSegB, Bool.and_eq_true] at h1 ⊢
    exact ⟨h1.1, ih x h1.2 (by simpa [lastOf] using h2)⟩

theorem dualSegB_split (h : Heap) (l1 l2 : List Nat) (prev : Nat)
    (hd : dualSegB h (l1 ++ l2) prev = true) :
    dualSegB h l1 prev = true ∧ dualSegB h l2 (lastOf l1 prev) = true := by
  induction l1 generalizing prev with
  | nil => exact ⟨rfl, by simpa [lastOf] using hd⟩
  | cons x xs ih =>
    simp only [List.cons_append, dualSegB, Bool.and_eq_true] at hd
    obtain ⟨ha, hb⟩ := ih x hd.2
    refine ⟨?_, by simpa [lastOf] using hb⟩
    simp only [dualSegB, Bool.and_eq_true]
    exact ⟨hd.1, ha⟩

/-!
Node-set lemmas.
-/

theorem nodesOkB_cons (h : Heap) (x : Nat) (xs : List Nat) :
    nodesOkB h (x :: xs) = true ↔
      goodNodeB h x = true ∧ (∀ y ∈ xs, farB x y = true) ∧
        nodesOkB h xs = true := by
  simp [nodesOkB, List.all_eq_true, and_assoc]

theorem nodesOkB_mem (h : Heap) (l : List Nat) (hok : nodesOkB h l = true) :
    ∀ y ∈ l, goodNodeB h y = true := by
  induction l with
  | nil => simp
  | cons x xs ih =>
    rw [nodesOkB_cons] at hok
    intro y hy
    rcases List.mem_cons.mp hy with rfl | hy
    · exact hok.1
    · exact ih hok.2.2 y hy

theorem farB_symm (x y : Nat) (hf : farB x y = true) : farB y x = true := by
  simp only [farB, Bool.or_eq_true, decide_eq_true_eq] at hf ⊢
  omega

theorem nodesOkB_pair (h : Heap) (l : List Nat) (hok : nodesOkB h l = true) :
    List.Pairwise (fun x y => farB x y = true) l := by
  induction l with
  | nil => exact List.Pairwise.nil
  | cons x xs ih =>
    rw [nodesOkB_cons] at hok
    exact List.Pairwise.cons hok.2.1 (ih hok.2.2)

theorem nodesOkB_sublist (h : Heap) (l l' : List Nat)
    (hs : l'.Sublist l) (hok : nodesOkB h l = true) :
    nodesOkB h l' = true := by
  induction hs with
  | slnil => exact hok
  | cons x _ ih =>
    rw [nodesOkB_cons] at hok
    exact ih hok.2.2
  | cons₂ x hsub ih =>
    rw [nodesOkB_cons] at hok ⊢
    exact ⟨hok.1, fun y hy => hok.2.1 y (hsub.subset hy), ih hok.2.2⟩

theorem goodNodeB_bounds (h : Heap) (x : Nat) (hg : goodNodeB h x = true) :
    h.heapListp + 8 ≤ x ∧ x - h.heapListp < 4294967296 := by
  simp only [goodNodeB, Bool.and_eq_true, decide_eq_true_eq] at hg
  exact hg

theorem farB_bounds (x y : Nat) (hf : farB x y = true) :
    x + 12 ≤ y ∨ y + 12 ≤ x := by
  simpa [farB] using hf

theorem nodesOkB_far_of_mem (h : Heap) (l : List Nat)
    (hok : nodesOkB h l = true) {x y : Nat} (hx : x ∈ l) (hy : y ∈ l)
    (hne : x ≠ y) : farB x y = true := by
  induction l with
  | nil => cases hx
  | cons z zs ih =>
    rw [nodesOkB_cons] at hok
    rcases List.mem_cons.mp hx with hxz | hx2
    · subst hxz
      rcases List.mem_cons.mp hy with hyz | hy2
      · exact absurd hyz.symm hne
      · exact hok.2.1 y hy2
    · rcases List.mem_cons.mp hy with hyz | hy2
      · subst hyz
        exact farB_symm _ _ (hok.2.1 x hx2)
      · exact ih hok.2.2 hx2 hy2

theorem GET_HEAD_SET_HEAD_self (h : Heap) (headp x : Nat)
    (hb : x = 0 ∨ (h.heapListp < x ∧ x - h.heapListp < 4294967296)) :
    GET_HEAD (SET_HEAD h headp x) headp = x := by
  unfold GET_HEAD SET_HEAD
  rw [getWord_putWord_self, Nat.mod_eq_of_lt (abs2rel_lt h x)]
  exact rel2abs_abs2rel h _ (by simp) x hb

theorem GET_SUCC_SET_SUCC_self (h : Heap) (bp x : Nat)
    (hb : x = 0 ∨ (h.heapListp < x ∧ x - h.heapListp < 4294967296)) :
    GET_SUCC (SET_SUCC h bp x) bp = x := by
  unfold GET_SUCC SET_SUCC SUCCP
  rw [getWord_putWord_self, Nat.mod_eq_of_lt (abs2rel_lt h x)]
  exact rel2abs_abs2rel h _ (by simp) x hb

theorem GET_PRED_SET_PRED_self (h : Heap) (bp x : Nat)
    (hb : x = 0 ∨ (h.heapListp < x ∧ x - h.heapListp < 4294967296)) :
    GET_PRED (SET_PRED h bp x) bp = x := by
  unfold GET_PRED SET_PRED PREDP
  rw [getWord_putWord_self, Nat.mod_eq_of_lt (abs2rel_lt h x)]
  exact rel2abs_abs2rel h _ (by simp) x hb

/-!
Scan lemmas.
-/

theorem insertScan_eq (h : Heap) (s : Nat) (l : List Nat) :
    ∀ (fuel pred bp : Nat), chainB h l bp = true → l.length < fuel →
      insertScan h s fuel pred bp = some (scanSplit h s pred l) := by
  induction l with
  | nil =>
    intro fuel pred bp hc hf
    rw [chainB, chainSegB_nil_iff] at hc
    subst hc
    cases fuel with
    | zero => omega
    | succ f => simp [insertScan, scanSplit]
  | cons x xs ih =>
    intro fuel pred bp hc hf
    rw [chainB, chainSegB_cons_iff] at hc
    obtain ⟨he, hx0, hrest⟩ := hc
    subst he
    cases fuel with
    | zero => omega
    | succ f =>
      show insertScan h s (f + 1) pred bp = _
      by_cases hlt : GET_SIZE h (HDRP bp) < s
      · rw [insertScan, if_pos ⟨hx0, hlt⟩, scanSplit, if_pos hlt]
        exact ih f bp (GET_SUCC h bp) hrest (by simp at hf; omega)
      · rw [insertScan, if_neg (by tauto), scanSplit, if_neg hlt]

theorem scanSplit_char (h : Heap) (s : Nat) (l : List Nat) :
    ∀ pred0 : Nat,
      ∃ l1 l2 pr sc, scanSplit h s pred0 l = (pr, sc) ∧ l = l1 ++ l2 ∧
        (∀ y ∈ l1, GET_SIZE h (HDRP y) < s) ∧
        ((l1 = [] ∧ pr = pred0) ∨ ∃ l1', l1 = l1' ++ [pr]) ∧
        ((l2 = [] ∧ sc = 0) ∨
          ∃ t, l2 = sc :: t ∧ s ≤ GET_SIZE h (HDRP sc)) := by
  induction l with
  | nil =>
    intro pred0
    exact ⟨[], [], pred0, 0, rfl, rfl, by simp, Or.inl ⟨rfl, rfl⟩,
      Or.inl ⟨rfl, rfl⟩⟩
  | cons x xs ih =>
    intro pred0
    by_cases hlt : GET_SIZE h (HDRP x) < s
    · obtain ⟨l1, l2, pr, sc, hscan, hsplit, hsz, hpr, hsc⟩ := ih x
      refine ⟨x :: l1, l2, pr, sc, ?_, by simp [hsplit], ?_, ?_, hsc⟩
      · rw [scanSplit, if_pos hlt]; exact hscan
      · intro y hy
        rcases List.mem_cons.mp hy with rfl | hy
        · exact hlt
        · exact hsz y hy
      · rcases hpr with ⟨hl1, hpr⟩ | ⟨l1', hl1⟩
        · exact Or.inr ⟨[], by simp [hl1, hpr]⟩
        · exact Or.inr ⟨x :: l1', by simp [hl1]⟩
    · refine ⟨[], x :: xs, pred0, x, ?_, rfl, by simp, Or.inl ⟨rfl, rfl⟩,
        Or.inr ⟨xs, rfl, by omega⟩⟩
      rw [scanSplit, if_neg hlt]

theorem classId_le (size : Nat) : classId size ≤ 13 := by
  unfold classId
  by_cases h1 : size ≤ 8
  · rw [if_pos h1]; omega
  rw [if_neg h1]
  by_cases h2 : size ≤ 16
  · rw [if_pos h2]; omega
  rw [if_neg h2]
  by_cases h3 : size ≤ 24
  · rw [if_pos h3]; omega
  rw [if_neg h3]
  by_cases h4 : size ≤ 32
  · rw [if_pos h4]; omega
  rw [if_neg h4]
  by_cases h5 : size ≤ 64
  · rw [if_pos h5]; omega
  rw [if_neg h5]
  by_cases h6 : size ≤ 128
  · rw [if_pos h6]; omega
  rw [if_neg h6]
  by_cases h7 : size ≤ 256
  · rw [if_pos h7]; omega
  rw [if_neg h7]
  by_cases h8 : size ≤ 512
  · rw [if_pos h8]; omega
  rw [if_neg h8]
  by_cases h9 : size ≤ 1024
  · rw [if_pos h9]; omega
  rw [if_neg h9]
  by_cases h10 : size ≤ 2048
  · rw [if_pos h10]; omega
  rw [if_neg h10]
  by_cases h11 : size ≤ 4096
  · rw [if_pos h11]; omega
  rw [if_neg h11]
  by_cases h12 : size ≤ 8192
  · rw [if_pos h12]; omega
  rw [if_neg h12]
  by_cases h13 : size ≤ 16384
  · rw [if_pos h13]; omega
  rw [if_neg h13]

/-!
Insert lemma: inserting a block into the free list of its size class
splits the old chain at the first node of size at least the block's
size and links the block there; everything outside the head slot and
the link fields of the touched nodes is untouched.
-/

theorem insert_to_free_list_run (fuel : Nat) (h : Heap) (bp pr sc : Nat)
    (hs : insertScan h (GET_SIZE h (HDRP bp)) fuel
      (get_listp h (GET_SIZE h (HDRP bp)))
      (GET_HEAD h (get_listp h (GET_SIZE h (HDRP bp)))) = some (pr, sc)) :
    insert_to_free_list fuel h bp =
      (if pr = get_listp h (GET_SIZE h (HDRP bp)) ∧ sc = 0 then
        some (SET_SUCC (SET_PRED (SET_HEAD h
          (get_listp h (GET_SIZE h (HDRP bp))) bp) bp 0) bp 0)
      else if pr = get_listp h (GET_SIZE h (HDRP bp)) ∧ sc ≠ 0 then
        some (SET_PRED (SET_SUCC (SET_PRED (SET_HEAD h
          (get_listp h (GET_SIZE h (HDRP bp))) bp) bp 0) bp sc) sc bp)
      else if pr ≠ get_listp h (GET_SIZE h (HDRP bp)) ∧ sc = 0 then
        some (SET_SUCC (SET_PRED (SET_SUCC h pr bp) bp pr) bp sc)
      else
        some (SET_PRED (SET_SUCC (SET_PRED (SET_SUCC h pr bp) bp pr)
          bp sc) sc bp)) := by
  simp only [insert_to_free_list]
  rw [hs]
  rfl

theorem insert_spec (h : Heap) (fuel bp : Nat) (l : List Nat)
    (hlp : 64 ≤ h.heapListp)
    (hok : nodesOkB h (bp :: l) = true)
    (hch : chainB h l
      (GET_HEAD h (get_listp h (GET_SIZE h (HDRP bp)))) = true)
    (hf : l.length < fuel) :
    ∃ h' l1 l2, insert_to_free_list fuel h bp = some h' ∧ l = l1 ++ l2 ∧
      h'.heapListp = h.heapListp ∧ h'.brk = h.brk ∧
      h'.sbrkCalls = h.sbrkCalls ∧
      (∀ p, (p + 4 ≤ get_listp h (GET_SIZE h (HDRP bp)) ∨
              get_listp h (GET_SIZE h (HDRP bp)) + 4 ≤ p) →
        (∀ y ∈ bp :: l, p + 4 ≤ y ∨ y + 8 ≤ p) →
        getWord h' p = getWord h p) ∧
      chainB h' (l1 ++ bp :: l2)
        (GET_HEAD h' (get_listp h (GET_SIZE h (HDRP bp)))) = true ∧
      (∀ y ∈ l1, GET_SIZE h (HDRP y) < GET_SIZE h (HDRP bp)) ∧
      (∀ x t, l2 = x :: t → GET_SIZE h (HDRP bp) ≤ GET_SIZE h (HDRP x)) := by
  have hnode : ∀ y ∈ bp :: l,
      h.heapListp + 8 ≤ y ∧ y - h.heapListp < 4294967296 :=
    fun y hy => goodNodeB_bounds _ _ (nodesOkB_mem _ _ hok y hy)
  have hfar : ∀ x ∈ bp :: l, ∀ y ∈ bp :: l, x ≠ y →
      x + 12 ≤ y ∨ y + 12 ≤ x :=
    fun x hx y hy hne => farB_bounds _ _ (nodesOkB_far_of_mem h _ hok hx hy hne)
  have hfarbp : ∀ y ∈ l, bp + 12 ≤ y ∨ y + 12 ≤ bp := by
    intro y hy
    exact farB_bounds _ _ (((nodesOkB_cons h bp l).mp hok).2.1 y hy)
  have hbp := hnode bp (List.mem_cons_self bp l)
  have hlnode : ∀ y ∈ l, h.heapListp + 8 ≤ y ∧ y - h.heapListp < 4294967296 :=
    fun y hy => hnode y (List.mem_cons_of_mem bp hy)
  have hheadp : get_listp h (GET_SIZE h (HDRP bp)) + 12 ≤ h.heapListp := by
    unfold get_listp
    have := classId_le (GET_SIZE h (HDRP bp))
    omega
  obtain ⟨l1, l2, pr, sc, hscan, hsplit, hszl1, hprc, hscc⟩ :=
    scanSplit_char h (GET_SIZE h (HDRP bp)) l
      (get_listp h (GET_SIZE h (HDRP bp)))
  have hscanEq := insertScan_eq h (GET_SIZE h (HDRP bp)) l fuel
    (get_listp h (GET_SIZE h (HDRP bp)))
    (GET_HEAD h (get_listp h (GET_SIZE h (HDRP bp)))) hch hf
  rw [hscan] at hscanEq
  have hent : entryOf l2 0 = sc := by
    rcases hscc with ⟨he2, hsc⟩ | ⟨t, he2, _⟩ <;> simp [he2, entryOf, *]
  have hchsplit := chainSegB_split h l1 l2
    (GET_HEAD h (get_listp h (GET_SIZE h (HDRP bp)))) 0 (by rw [← hsplit]; exact hch)
  rw [hent] at hchsplit
  obtain ⟨hcl1, hcl2⟩ := hchsplit
  rcases hprc with ⟨hl1nil, hpreq⟩ | ⟨l1', hl1eq⟩
  · rcases hscc with ⟨hl2nil, hsceq⟩ | ⟨t, hl2eq, hscfit⟩
    · -- Case 1: empty class list; bp becomes the whole list.
      subst hl1nil; subst hl2nil; subst hsceq
      refine ⟨SET_SUCC (SET_PRED
          (SET_HEAD h (get_listp h (GET_SIZE h (HDRP bp))) bp) bp 0) bp 0,
        [], [], ?_, hsplit, by simp [SET_SUCC, SET_PRED, SET_HEAD],
        by simp [SET_SUCC, SET_PRED, SET_HEAD],
        by simp [SET_SUCC, SET_PRED, SET_HEAD], ?_, ?_, by simp, by simp⟩
      · rw [insert_to_free_list_run fuel h bp pr 0 hscanEq,
          if_pos ⟨hpreq, rfl⟩]
      · -- frame
        intro p hp1 hp2
        have hpbp := hp2 bp (List.mem_cons_self bp l)
        simp only [SET_SUCC, SET_PRED, SET_HEAD, SUCCP, PREDP]
        rw [getWord_putWord_of_far _ _ _ _ (by omega),
          getWord_putWord_of_far _ _ _ _ (by omega),
          getWord_putWord_of_far _ _ _ _ (by omega)]
      · -- chain
        have hgh : GET_HEAD (SET_SUCC (SET_PRED
            (SET_HEAD h (get_listp h (GET_SIZE h (HDRP bp))) bp) bp 0) bp 0)
            (get_listp h (GET_SIZE h (HDRP bp))) = bp := by
          simp only [SET_SUCC, SET_PRED, SUCCP, PREDP]
          rw [GET_HEAD_putWord_of_far _ _ _ _ (by omega),
            GET_HEAD_putWord_of_far _ _ _ _ (by omega),
            GET_HEAD_SET_HEAD_self h _ bp (Or.inr ⟨by omega, hbp.2⟩)]
        rw [List.nil_append, chainB, chainSegB_cons_iff]
        refine ⟨hgh, by omega, ?_⟩
        rw [chainSegB_nil_iff]
        exact GET_SUCC_SET_SUCC_self _ bp 0 (Or.inl rfl)
    · -- Case 2: bp becomes the new head, in front of sc.
      subst hl1nil; subst hl2eq
      have hscl : sc ∈ l := by
        rw [hsplit]; exact List.mem_append.mpr (Or.inr (by simp))
      have hsc := hlnode sc hscl
      have hfbpsc := hfarbp sc hscl
      refine ⟨SET_PRED (SET_SUCC (SET_PRED (SET_HEAD h
          (get_listp h (GET_SIZE h (HDRP bp))) bp) bp 0) bp sc) sc bp,
        [], sc :: t, ?_, hsplit, by simp [SET_SUCC, SET_PRED, SET_HEAD],
        by simp [SET_SUCC, SET_PRED, SET_HEAD],
        by simp [SET_SUCC, SET_PRED, SET_HEAD], ?_, ?_, by simp, ?_⟩
      · rw [insert_to_free_list_run fuel h bp pr sc hscanEq,
          if_neg (fun hcon => by omega), if_pos ⟨hpreq, by omega⟩]
      · -- frame
        intro p hp1 hp2
        have hpbp := hp2 bp (List.mem_cons_self bp l)
        have hpsc := hp2 sc (List.mem_cons_of_mem bp hscl)
        simp only [SET_SUCC, SET_PRED, SET_HEAD, SUCCP, PREDP]
        rw [getWord_putWord_of_far _ _ _ _ (by omega),
          getWord_putWord_of_far _ _ _ _ (by omega),
          getWord_putWord_of_far _ _ _ _ (by omega),
          getWord_putWord_of_far _ _ _ _ (by omega)]
      · -- chain
        have hgh : GET_HEAD (SET_PRED (SET_SUCC (SET_PRED (SET_HEAD h
            (get_listp h (GET_SIZE h (HDRP bp))) bp) bp 0) bp sc) sc bp)
            (get_listp h (GET_SIZE h (HDRP bp))) = bp := by
          simp only [SET_SUCC, SET_PRED, SUCCP, PREDP]
          rw [GET_HEAD_putWord_of_far _ _ _ _ (by omega),
            GET_HEAD_putWord_of_far _ _ _ _ (by omega),
            GET_HEAD_putWord_of_far _ _ _ _ (by omega),
            GET_HEAD_SET_HEAD_self h _ bp (Or.inr ⟨by omega, hbp.2⟩)]
        have hsbp : GET_SUCC (SET_PRED (SET_SUCC (SET_PRED (SET_HEAD h
            (get_listp h (GET_SIZE h (HDRP bp))) bp) bp 0) bp sc) sc bp)
            bp = sc := by
          simp only [SET_PRED, PREDP]
          rw [GET_SUCC_putWord_of_far _ _ _ _ (by omega)]
          exact GET_SUCC_SET_SUCC_self _ bp sc
            (Or.inr ⟨show h.heapListp < sc by omega, hsc.2⟩)
        have hsl2 : ∀ y ∈ sc :: t, GET_SUCC (SET_PRED (SET_SUCC (SET_PRED
            (SET_HEAD h (get_listp h (GET_SIZE h (HDRP bp))) bp) bp 0)
            bp sc) sc bp) y = GET_SUCC h y := by
          intro y hy
          have hyl : y ∈ l := by
            rw [hsplit]; exact List.mem_append.mpr (Or.inr hy)
          have hyb := hlnode y hyl
          have hybp := hfarbp y hyl
          have hysc : y = sc ∨ (y + 12 ≤ sc ∨ sc + 12 ≤ y) := by
            rcases eq_or_ne y sc with he | hne
            · exact Or.inl he
            · exact Or.inr (hfar y (List.mem_cons_of_mem bp hyl) sc
                (List.mem_cons_of_mem bp hscl) hne)
          simp only [SET_SUCC, SET_PRED, SET_HEAD, SUCCP, PREDP]
          rw [GET_SUCC_putWord_of_far _ _ _ _ (by omega),
            GET_SUCC_putWord_of_far _ _ _ _ (by omega),
            GET_SUCC_putWord_of_far _ _ _ _ (by omega),
            GET_SUCC_putWord_of_far _ _ _ _ (by omega)]
        rw [List.nil_append, chainB, chainSegB_cons_iff]
        refine ⟨hgh, by omega, ?_⟩
        rw [hsbp, chainSegB_congr h _ (sc :: t) sc 0 hsl2]
        exact hcl2
      · -- head of l2 fits
        intro x t' hxe
        injection hxe with h1 h2
        subst h1
        exact hscfit
  · -- pr is a real node: the new block is linked after pr.
    have hprl1 : pr ∈ l1 := by
      rw [hl1eq]; exact List.mem_append.mpr (Or.inr (by simp))
    have hprl : pr ∈ l := by
      rw [hsplit]; exact List.mem_append.mpr (Or.inl hprl1)
    have hprb := hlnode pr hprl
    have hfbppr := hfarbp pr hprl
    have hpw : List.Pairwise (fun a b => farB a b = true) l :=
      (List.pairwise_cons.mp (nodesOkB_pair h (bp :: l) hok)).2
    have hpwsplit := List.pairwise_append.mp (by rw [← hsplit]; exact hpw)
    have hpwl1 := List.pairwise_append.mp
      (by rw [← hl1eq]; exact hpwsplit.1)
    have hfar_l1_pr : ∀ y ∈ l1', y + 12 ≤ pr ∨ pr + 12 ≤ y :=
      fun y hy => farB_bounds _ _ (hpwl1.2.2 y hy pr (by simp))
    have hfar_pr_l2 : ∀ y ∈ l2, pr + 12 ≤ y ∨ y + 12 ≤ pr :=
      fun y hy => farB_bounds _ _ (hpwsplit.2.2 pr hprl1 y hy)
    have hchl1 := chainSegB_split h l1' [pr]
      (GET_HEAD h (get_listp h (GET_SIZE h (HDRP bp)))) sc
      (by rw [← hl1eq]; exact hcl1)
    have hcl1' : chainSegB h l1'
        (GET_HEAD h (get_listp h (GET_SIZE h (HDRP bp)))) pr := hchl1.1
    have hprsucc : GET_SUCC h pr = sc := by
      have := hchl1.2
      rw [show entryOf [pr] sc = pr from rfl, chainSegB_cons_iff] at this
      have h2 := this.2.2
      rw [chainSegB_nil_iff] at h2
      exact h2
    rcases hscc with ⟨hl2nil, hsceq⟩ | ⟨t, hl2eq, hscfit⟩
    · -- Case 3: append at the end of the list.
      subst hl2nil; subst hsceq
      refine ⟨SET_SUCC (SET_PRED (SET_SUCC h pr bp) bp pr) bp 0,
        l1, [], ?_, hsplit, by simp [SET_SUCC, SET_PRED],
        by simp [SET_SUCC, SET_PRED],
        by simp [SET_SUCC, SET_PRED], ?_, ?_, hszl1, by simp⟩
      · rw [insert_to_free_list_run fuel h bp pr 0 hscanEq,
          if_neg (fun hcon => by omega), if_neg (fun hcon => hcon.2 rfl),
          if_pos ⟨by omega, rfl⟩]
      · -- frame
        intro p hp1 hp2
        have hpbp := hp2 bp (List.mem_cons_self bp l)
        have hppr := hp2 pr (List.mem_cons_of_mem bp hprl)
        simp only [SET_SUCC, SET_PRED, SUCCP, PREDP]
        rw [getWord_putWord_of_far _ _ _ _ (by omega),
          getWord_putWord_of_far _ _ _ _ (by omega),
          getWord_putWord_of_far _ _ _ _ (by omega)]
      · -- chain
        have hgh : GET_HEAD (SET_SUCC (SET_PRED (SET_SUCC h pr bp) bp pr)
            bp 0) (get_listp h (GET_SIZE h (HDRP bp))) =
            GET_HEAD h (get_listp h (GET_SIZE h (HDRP bp))) := by
          simp only [SET_SUCC, SET_PRED, SUCCP, PREDP]
          rw [GET_HEAD_putWord_of_far _ _ _ _ (by omega),
            GET_HEAD_putWord_of_far _ _ _ _ (by omega),
            GET_HEAD_putWord_of_far _ _ _ _ (by omega)]
        have hsuccl1 : ∀ y ∈ l1', GET_SUCC (SET_SUCC (SET_PRED
            (SET_SUCC h pr bp) bp pr) bp 0) y = GET_SUCC h y := by
          intro y hy
          have hyl1 : y ∈ l1 := by
            rw [hl1eq]; exact List.mem_append.mpr (Or.inl hy)
          have hyl : y ∈ l := by
            rw [hsplit]; exact List.mem_append.mpr (Or.inl hyl1)
          have hyb := hlnode y hyl
          have hybp := hfarbp y hyl
          have hypr := hfar_l1_pr y hy
          simp only [SET_SUCC, SET_PRED, SUCCP, PREDP]
          rw [GET_SUCC_putWord_of_far _ _ _ _ (by omega),
            GET_SUCC_putWord_of_far _ _ _ _ (by omega),
            GET_SUCC_putWord_of_far _ _ _ _ (by omega)]
        have hsuccpr : GET_SUCC (SET_SUCC (SET_PRED (SET_SUCC h pr bp)
            bp pr) bp 0) pr = bp := by
          simp only [SET_SUCC, SET_PRED, SUCCP, PREDP]
          rw [GET_SUCC_putWord_of_far _ _ _ _ (by omega),
            GET_SUCC_putWord_of_far _ _ _ _ (by omega)]
          exact GET_SUCC_SET_SUCC_self h pr bp (Or.inr ⟨by omega, hbp.2⟩)
        have hsuccbp : GET_SUCC (SET_SUCC (SET_PRED (SET_SUCC h pr bp)
            bp pr) bp 0) bp = 0 :=
          GET_SUCC_SET_SUCC_self _ bp 0 (Or.inl rfl)
        rw [chainB, hgh, hl1eq, List.append_assoc]
        refine chainSegB_append _ l1' ([pr] ++ (bp :: [])) _ pr 0
          (by rw [chainSegB_congr h _ l1' _ pr hsuccl1]; exact hcl1') ?_
        refine chainSegB_append _ [pr] (bp :: []) pr bp 0 ?_ ?_
        · rw [chainSegB_cons_iff]
          exact ⟨rfl, by omega, by rw [hsuccpr, chainSegB_nil_iff]⟩
        · rw [chainSegB_cons_iff]
          exact ⟨rfl, by omega, by rw [hsuccbp, chainSegB_nil_iff]⟩
    · -- Case 4: linked between pr and sc.
      subst hl2eq
      have hscl : sc ∈ l := by
        rw [hsplit]; exact List.mem_append.mpr (Or.inr (by simp))
      have hsc := hlnode sc hscl
      have hfbpsc := hfarbp sc hscl
      have hfprsc := hfar_pr_l2 sc (by simp)
      refine ⟨SET_PRED (SET_SUCC (SET_PRED (SET_SUCC h pr bp) bp pr)
          bp sc) sc bp,
        l1, sc :: t, ?_, hsplit, by simp [SET_SUCC, SET_PRED],
        by simp [SET_SUCC, SET_PRED],
        by simp [SET_SUCC, SET_PRED], ?_, ?_, hszl1, ?_⟩
      · rw [insert_to_free_list_run fuel h bp pr sc hscanEq,
          if_neg (fun hcon => by omega), if_neg (fun hcon => by omega),
          if_neg (fun hcon => by omega)]
      · -- frame
        intro p hp1 hp2
        have hpbp := hp2 bp (List.mem_cons_self bp l)
        have hppr := hp2 pr (List.mem_cons_of_mem bp hprl)
        have hpsc := hp2 sc (List.mem_cons_of_mem bp hscl)
        simp only [SET_SUCC, SET_PRED, SUCCP, PREDP]
        rw [getWord_putWord_of_far _ _ _ _ (by omega),
          getWord_putWord_of_far _ _ _ _ (by omega),
          getWord_putWord_of_far _ _ _ _ (by omega),
          getWord_putWord_of_far _ _ _ _ (by omega)]
      · -- chain
        have hgh : GET_HEAD (SET_PRED (SET_SUCC (SET_PRED (SET_SUCC h pr
            bp) bp pr) bp sc) sc bp)
            (get_listp h (GET_SIZE h (HDRP bp))) =
            GET_HEAD h (get_listp h (GET_SIZE h (HDRP bp))) := by
          simp only [SET_SUCC, SET_PRED, SUCCP, PREDP]
          rw [GET_HEAD_putWord_of_far _ _ _ _ (by omega),
            GET_HEAD_putWord_of_far _ _ _ _ (by omega),
            GET_HEAD_putWord_of_far _ _ _ _ (by omega),
            GET_HEAD_putWord_of_far _ _ _ _ (by omega)]
        have hsuccl1 : ∀ y ∈ l1', GET_SUCC (SET_PRED (SET_SUCC (SET_PRED
            (SET_SUCC h pr bp) bp pr) bp sc) sc bp) y = GET_SUCC h y := by
          intro y hy
          have hyl1 : y ∈ l1 := by
            rw [hl1eq]; exact List.mem_append.mpr (Or.inl hy)
          have hyl : y ∈ l := by
            rw [hsplit]; exact List.mem_append.mpr (Or.inl hyl1)
          have hyb := hlnode y hyl
          have hybp := hfarbp y hyl
          have hypr := hfar_l1_pr y hy
          have hysc : y = sc ∨ (y + 12 ≤ sc ∨ sc + 12 ≤ y) := by
            rcases eq_or_ne y sc with he | hne
            · exact Or.inl he
            · exact Or.inr (hfar y (List.mem_cons_of_mem bp hyl) sc
                (List.mem_cons_of_mem bp hscl) hne)
          simp only [SET_SUCC, SET_PRED, SUCCP, PREDP]
          rw [GET_SUCC_putWord_of_far _ _ _ _ (by omega),
            GET_SUCC_putWord_of_far _ _ _ _ (by omega),
            GET_SUCC_putWord_of_far _ _ _ _ (by omega),
            GET_SUCC_putWord_of_far _ _ _ _ (by omega)]
        have hsuccpr : GET_SUCC (SET_PRED (SET_SUCC (SET_PRED (SET_SUCC h
            pr bp) bp pr) bp sc) sc bp) pr = bp := by
          simp only [SET_SUCC, SET_PRED, SUCCP, PREDP]
          rw [GET_SUCC_putWord_of_far _ _ _ _ (by omega),
            GET_SUCC_putWord_of_far _ _ _ _ (by omega),
            GET_SUCC_putWord_of_far _ _ _ _ (by omega)]
          exact GET_SUCC_SET_SUCC_self h pr bp (Or.inr ⟨by omega, hbp.2⟩)
        have hsuccbp : GET_SUCC (SET_PRED (SET_SUCC (SET_PRED (SET_SUCC h
            pr bp) bp pr) bp sc) sc bp) bp = sc := by
          simp only [SET_PRED, PREDP]
          rw [GET_SUCC_putWord_of_far _ _ _ _ (by omega)]
          exact GET_SUCC_SET_SUCC_self _ bp sc
            (Or.inr ⟨show h.heapListp < sc by omega, hsc.2⟩)
        have hsl2 : ∀ y ∈ sc :: t, GET_SUCC (SET_PRED (SET_SUCC (SET_PRED
            (SET_SUCC h pr bp) bp pr) bp sc) sc bp) y = GET_SUCC h y := by
          intro y hy
          have hyl : y ∈ l := by
            rw [hsplit]; exact List.mem_append.mpr (Or.inr hy)
          have hyb := hlnode y hyl
          have hybp := hfarbp y hyl
          have hypr := hfar_pr_l2 y hy
          have hysc : y = sc ∨ (y + 12 ≤ sc ∨ sc + 12 ≤ y) := by
            rcases eq_or_ne y sc with he | hne
            · exact Or.inl he
            · exact Or.inr (hfar y (List.mem_cons_of_mem bp hyl) sc
                (List.mem_cons_of_mem bp hscl) hne)
          simp only [SET_SUCC, SET_PRED, SUCCP, PREDP]
          rw [GET_SUCC_putWord_of_far _ _ _ _ (by omega),
            GET_SUCC_putWord_of_far _ _ _ _ (by omega),
            GET_SUCC_putWord_of_far _ _ _ _ (by omega),
            GET_SUCC_putWord_of_far _ _ _ _ (by omega)]
        rw [chainB, hgh, hl1eq, List.append_assoc]
        refine chainSegB_append _ l1' ([pr] ++ (bp :: sc :: t)) _ pr 0
          (by rw [chainSegB_congr h _ l1' _ pr hsuccl1]; exact hcl1') ?_
        refine chainSegB_append _ [pr] (bp :: sc :: t) pr bp 0 ?_ ?_
        · rw [chainSegB_cons_iff]
          exact ⟨rfl, by omega, by rw [hsuccpr, chainSegB_nil_iff]⟩
        · rw [chainSegB_cons_iff]
          refine ⟨rfl, by omega, ?_⟩
          rw [hsuccbp, chainSegB_congr h _ (sc :: t) sc 0 hsl2]
          exact hcl2
      · -- head of l2 fits
        intro x t' hxe
        injection hxe with h1 h2
        subst h1
        exact hscfit

/-!
find_fit characterization.
-/

theorem findFitInner_eq (h : Heap) (asize : Nat) (l : List Nat) :
    ∀ (fuel bp : Nat), chainB h l bp = true → l.length < fuel →
      findFitInner h asize fuel bp = some (firstFit h asize l) := by
  induction l with
  | nil =>
    intro fuel bp hc hf
    rw [chainB, chainSegB_nil_iff] at hc
    subst hc
    cases fuel with
    | zero => omega
    | succ f => rw [findFitInner, if_pos rfl]; rfl
  | cons x xs ih =>
    intro fuel bp hc hf
    rw [chainB, chainSegB_cons_iff] at hc
    obtain ⟨he, hx0, hrest⟩ := hc
    subst he
    cases fuel with
    | zero => omega
    | succ f =>
      rw [findFitInner, if_neg hx0, firstFit]
      by_cases hfit : asize ≤ GET_SIZE h (HDRP bp)
      · rw [if_pos hfit, if_pos hfit]
      · rw [if_neg hfit, if_neg hfit]
        exact ih f (GET_SUCC h bp) hrest (by simp at hf; omega)

theorem firstFit_append (h : Heap) (asize : Nat) (l1 l2 : List Nat)
    (hnz : ∀ y ∈ l1, y ≠ 0) :
    firstFit h asize (l1 ++ l2) =
      if firstFit h asize l1 = 0 then firstFit h asize l2
      else firstFit h asize l1 := by
  induction l1 with
  | nil => simp [firstFit]
  | cons x xs ih =>
    rw [List.cons_append, firstFit, firstFit]
    by_cases hfit : asize ≤ GET_SIZE h (HDRP x)
    · rw [if_pos hfit, if_pos hfit, if_neg (hnz x (by simp))]
    · rw [if_neg hfit, if_neg hfit]
      exact ih fun y hy => hnz y (by simp [hy])

theorem headSlot_four (h : Heap) (c : Nat) (hlp : 64 ≤ h.heapListp) :
    headSlot h c + 4 = headSlot h (c + 1) := by
  unfold headSlot
  omega

theorem findFitOuter_eq (h : Heap) (asize : Nat) (L : Nat → List Nat)
    (hlp : 64 ≤ h.heapListp) :
    ∀ (k c fuel : Nat), c + k = 14 → k < fuel →
      (∀ i, c ≤ i → i < 14 →
        chainB h (L i) (GET_HEAD h (headSlot h i)) = true) →
      (∀ i, c ≤ i → i < 14 → (L i).length + k < fuel) →
      findFitOuter h asize (h.heapListp - 8) fuel (headSlot h c) =
        some (firstFit h asize (concatFrom L c k)) := by
  intro k
  induction k with
  | zero =>
    intro c fuel hc hkf hch hlen
    have hc14 : c = 14 := by omega
    subst hc14
    cases fuel with
    | zero => omega
    | succ f =>
      rw [findFitOuter, if_pos (by unfold headSlot; omega)]
      rfl
  | succ k ih =>
    intro c fuel hc hkf hch hlen
    cases fuel with
    | zero => omega
    | succ f =>
      have hne : headSlot h c ≠ h.heapListp - 8 := by
        unfold headSlot; omega
      have hchc := hch c (by omega) (by omega)
      have hlenc := hlen c (by omega) (by omega)
      have hinner := findFitInner_eq h asize (L c) (f + 1)
        (GET_HEAD h (headSlot h c)) hchc (by omega)
      have hnz : ∀ y ∈ L c, y ≠ 0 :=
        chainSegB_ne_zero h (L c) (GET_HEAD h (headSlot h c)) 0 hchc
      rw [findFitOuter, if_neg hne, hinner]
      show (if firstFit h asize (L c) ≠ 0 then some (firstFit h asize (L c))
        else findFitOuter h asize (h.heapListp - 8) f (headSlot h c + 4)) = _
      rw [show concatFrom L c (k + 1) = L c ++ concatFrom L (c + 1) k
          from rfl,
        firstFit_append h asize (L c) (concatFrom L (c + 1) k) hnz]
      by_cases hz : firstFit h asize (L c) = 0
      · rw [if_neg (by simpa using hz), if_pos hz,
          headSlot_four h c hlp]
        exact ih (c + 1) f (by omega) (by omega)
          (fun i hi1 hi2 => hch i (by omega) hi2)
          (fun i hi1 hi2 => by have := hlen i (by omega) hi2; omega)
      · rw [if_pos hz, if_neg hz]

theorem find_fit_eq (h : Heap) (asize fuel : Nat) (L : Nat → List Nat)
    (hlp : 64 ≤ h.heapListp) (hkf : 14 - classId asize < fuel)
    (hch : ∀ i, i < 14 →
      chainB h (L i) (GET_HEAD h (headSlot h i)) = true)
    (hlen : ∀ i, i < 14 → (L i).length + 14 < fuel) :
    find_fit fuel h asize =
      some (firstFit h asize
        (concatFrom L (classId asize) (14 - classId asize))) := by
  have hcl := classId_le asize
  have : get_listp h asize = headSlot h (classId asize) := rfl
  rw [find_fit, this]
  exact findFitOuter_eq h asize L hlp (14 - classId asize) (classId asize)
    fuel (by omega) hkf (fun i hi1 hi2 => hch i hi2)
    (fun i hi1 hi2 => by have := hlen i hi2; omega)

/-!
Sorted-list lemmas.
-/

theorem sortedSizesB_cons_iff (h : Heap) (x : Nat) (l : List Nat) :
    sortedSizesB h (x :: l) = true ↔
      (∀ y t, l = y :: t → GET_SIZE h (HDRP x) ≤ GET_SIZE h (HDRP y)) ∧
        sortedSizesB h l = true := by
  cases l with
  | nil => simp [sortedSizesB]
  | cons y t =>
    simp only [sortedSizesB, Bool.and_eq_true, decide_eq_true_eq]
    constructor
    · rintro ⟨h1, h2⟩
      refine ⟨?_, h2⟩
      intro y' t' he
      injection he with he1 he2
      subst he1
      exact h1
    · rintro ⟨h1, h2⟩
      exact ⟨h1 y t rfl, h2⟩

theorem sortedSizesB_head_le (h : Heap) (x : Nat) (l : List Nat)
    (hs : sortedSizesB h (x :: l) = true) :
    ∀ y ∈ l, GET_SIZE h (HDRP x) ≤ GET_SIZE h (HDRP y) := by
  induction l generalizing x with
  | nil => simp
  | cons z t ih =>
    rw [sortedSizesB_cons_iff] at hs
    intro y hy
    rcases List.mem_cons.mp hy with rfl | hy
    · exact hs.1 y t rfl
    · exact le_trans (hs.1 z t rfl) (ih z hs.2 y hy)

theorem firstFit_mem_fit (h : Heap) (asize : Nat) (l : List Nat)
    (hne : firstFit h asize l ≠ 0) :
    firstFit h asize l ∈ l ∧
      asize ≤ GET_SIZE h (HDRP (firstFit h asize l)) := by
  induction l with
  | nil => simp [firstFit] at hne
  | cons x xs ih =>
    by_cases hfit : asize ≤ GET_SIZE h (HDRP x)
    · rw [firstFit, if_pos hfit] at hne ⊢
      exact ⟨by simp, hfit⟩
    · rw [firstFit, if_neg hfit] at hne ⊢
      obtain ⟨h1, h2⟩ := ih hne
      exact ⟨by simp [h1], h2⟩

theorem firstFit_min_sorted (h : Heap) (asize : Nat) (l : List Nat)
    (hs : sortedSizesB h l = true) :
    ∀ y ∈ l, asize ≤ GET_SIZE h (HDRP y) →
      GET_SIZE h (HDRP (firstFit h asize l)) ≤ GET_SIZE h (HDRP y) := by
  induction l with
  | nil => simp
  | cons x xs ih =>
    intro y hy hfy
    by_cases hfit : asize ≤ GET_SIZE h (HDRP x)
    · rw [firstFit, if_pos hfit]
      rcases List.mem_cons.mp hy with rfl | hy
      · exact le_refl _
      · exact sortedSizesB_head_le h x xs hs y hy
    · rw [firstFit, if_neg hfit]
      rcases List.mem_cons.mp hy with rfl | hy
      · exact absurd hfy hfit
      · exact ih ((sortedSizesB_cons_iff h x xs).mp hs).2 y hy hfy

theorem sortedSizesB_insert_mid (h : Heap) (bp : Nat) (l1 l2 : List Nat)
    (hs : sortedSizesB h (l1 ++ l2) = true)
    (h1 : ∀ y ∈ l1, GET_SIZE h (HDRP y) < GET_SIZE h (HDRP bp))
    (h2 : ∀ x t, l2 = x :: t →
      GET_SIZE h (HDRP bp) ≤ GET_SIZE h (HDRP x)) :
    sortedSizesB h (l1 ++ bp :: l2) = true := by
  induction l1 with
  | nil =>
    rw [List.nil_append, sortedSizesB_cons_iff]
    exact ⟨fun y t he => h2 y t he, by simpa using hs⟩
  | cons a l1' ih =>
    rw [List.cons_append, sortedSizesB_cons_iff]
    rw [List.cons_append, sortedSizesB_cons_iff] at hs
    refine ⟨?_, ih hs.2 (fun y hy => h1 y (by simp [hy]))⟩
    intro y t he
    cases l1' with
    | nil =>
      simp only [List.nil_append] at he
      injection he with he1 he2
      subst he1
      exact le_of_lt (h1 a (by simp))
    | cons b l1'' =>
      simp only [List.cons_append] at he
      injection he with he1 he2
      subst he1
      exact hs.1 b (l1'' ++ l2) rfl

/-!
Remove lemma.
-/

theorem lastOf_concat (l : List Nat) (a d : Nat) :
    lastOf (l ++ [a]) d = a := by
  induction l generalizing d with
  | nil => rfl
  | cons x xs ih => exact ih x

theorem nodesOkB_heapListp (h h' : Heap) (l : List Nat)
    (he : h'.heapListp = h.heapListp) :
    nodesOkB h' l = nodesOkB h l := by
  induction l with
  | nil => rfl
  | cons x xs ih =>
    simp only [nodesOkB, goodNodeB, he, ih]

theorem remove_from_free_list_run (h : Heap) (bp : Nat) :
    remove_from_free_list h bp =
      (if GET_PRED h bp = 0 ∧ GET_SUCC h bp = 0 then
        SET_HEAD h (get_listp h (GET_SIZE h (HDRP bp))) 0
      else if GET_PRED h bp = 0 ∧ GET_SUCC h bp ≠ 0 then
        SET_PRED (SET_HEAD h (get_listp h (GET_SIZE h (HDRP bp)))
          (GET_SUCC h bp)) (GET_SUCC h bp) 0
      else if GET_PRED h bp ≠ 0 ∧ GET_SUCC h bp = 0 then
        SET_SUCC h (GET_PRED h bp) 0
      else
        SET_PRED (SET_SUCC h (GET_PRED h bp) (GET_SUCC h bp))
          (GET_SUCC h bp) (GET_PRED h bp)) := rfl

theorem remove_spec (h : Heap) (bp : Nat) (l1 l2 : List Nat)
    (hlp : 64 ≤ h.heapListp)
    (hok : nodesOkB h (l1 ++ bp :: l2) = true)
    (hch : chainB h (l1 ++ bp :: l2)
      (GET_HEAD h (get_listp h (GET_SIZE h (HDRP bp)))) = true)
    (hdual : dualSegB h (l1 ++ bp :: l2) 0 = true) :
    (remove_from_free_list h bp).heapListp = h.heapListp ∧
    (remove_from_free_list h bp).brk = h.brk ∧
    (remove_from_free_list h bp).sbrkCalls = h.sbrkCalls ∧
    (∀ p, (p + 4 ≤ get_listp h (GET_SIZE h (HDRP bp)) ∨
            get_listp h (GET_SIZE h (HDRP bp)) + 4 ≤ p) →
      (∀ y ∈ l1 ++ bp :: l2, p + 4 ≤ y ∨ y + 8 ≤ p) →
      getWord (remove_from_free_list h bp) p = getWord h p) ∧
    chainB (remove_from_free_list h bp) (l1 ++ l2)
      (GET_HEAD (remove_from_free_list h bp)
        (get_listp h (GET_SIZE h (HDRP bp)))) = true ∧
    dualSegB (remove_from_free_list h bp) (l1 ++ l2) 0 = true := by
  have hnode : ∀ y ∈ l1 ++ bp :: l2,
      h.heapListp + 8 ≤ y ∧ y - h.heapListp < 4294967296 :=
    fun y hy => goodNodeB_bounds _ _ (nodesOkB_mem _ _ hok y hy)
  have hbpmem : bp ∈ l1 ++ bp :: l2 :=
    List.mem_append.mpr (Or.inr (List.mem_cons_self bp l2))
  have hbp := hnode bp hbpmem
  have hheadp : get_listp h (GET_SIZE h (HDRP bp)) + 12 ≤ h.heapListp := by
    unfold get_listp
    have := classId_le (GET_SIZE h (HDRP bp))
    omega
  have hfar : ∀ x ∈ l1 ++ bp :: l2, ∀ y ∈ l1 ++ bp :: l2, x ≠ y →
      x + 12 ≤ y ∨ y + 12 ≤ x :=
    fun x hx y hy hne =>
      farB_bounds _ _ (nodesOkB_far_of_mem h _ hok hx hy hne)
  have hpw := nodesOkB_pair h _ hok
  have hpwsp := List.pairwise_append.mp hpw
  have hchsp := chainSegB_split h l1 (bp :: l2)
    (GET_HEAD h (get_listp h (GET_SIZE h (HDRP bp)))) 0 hch
  have hcl1 : chainSegB h l1
      (GET_HEAD h (get_listp h (GET_SIZE h (HDRP bp)))) bp := hchsp.1
  have hcbp := hchsp.2
  rw [show entryOf (bp :: l2) 0 = bp from rfl] at hcbp
  rw [chainSegB_cons_iff] at hcbp
  have hcl2 : chainSegB h l2 (GET_SUCC h bp) 0 := hcbp.2.2
  have hdsp := dualSegB_split h l1 (bp :: l2) 0 hdual
  have hdl1 : dualSegB h l1 0 = true := hdsp.1
  have hdbp := hdsp.2
  rw [dualSegB_cons_iff] at hdbp
  have hpred : GET_PRED h bp = lastOf l1 0 := hdbp.1
  have hdl2 : dualSegB h l2 bp = true := hdbp.2
  rcases List.eq_nil_or_concat l1 with hl1nil | ⟨l1'', pr, hl1eq⟩
  · subst hl1nil
    have hpred0 : GET_PRED h bp = 0 := hpred
    cases l2 with
    | nil =>
      have hsucc0 : GET_SUCC h bp = 0 := by
        rw [chainSegB_nil_iff] at hcl2; exact hcl2
      rw [remove_from_free_list_run, if_pos ⟨hpred0, hsucc0⟩]
      refine ⟨by simp [SET_HEAD], by simp [SET_HEAD], by simp [SET_HEAD],
        ?_, ?_, rfl⟩
      · intro p hp1 hp2
        simp only [SET_HEAD]
        rw [getWord_putWord_of_far _ _ _ _ (by omega)]
      · rw [List.nil_append, chainB, chainSegB_nil_iff]
        exact GET_HEAD_SET_HEAD_self h _ 0 (Or.inl rfl)
    | cons sc t =>
      rw [chainSegB_cons_iff] at hcl2
      have hsucceq : GET_SUCC h bp = sc := hcl2.1
      have hscmem : sc ∈ ([] : List Nat) ++ bp :: sc :: t := by simp
      have hsc := hnode sc hscmem
      have hfbpsc := farB_bounds _ _
        ((List.pairwise_cons.mp hpwsp.2.1).1 sc (by simp))
      rw [dualSegB_cons_iff] at hdl2
      have hdt : dualSegB h t sc = true := hdl2.2
      rw [remove_from_free_list_run,
        if_neg (fun hc => by omega), if_pos ⟨hpred0, by omega⟩, hsucceq]
      refine ⟨by simp [SET_HEAD, SET_PRED], by simp [SET_HEAD, SET_PRED],
        by simp [SET_HEAD, SET_PRED], ?_, ?_, ?_⟩
      · intro p hp1 hp2
        have hpsc := hp2 sc hscmem
        simp only [SET_HEAD, SET_PRED, PREDP]
        rw [getWord_putWord_of_far _ _ _ _ (by omega),
          getWord_putWord_of_far _ _ _ _ (by omega)]
      · -- chain is sc :: t
        have hgh : GET_HEAD (SET_PRED (SET_HEAD h
            (get_listp h (GET_SIZE h (HDRP bp))) sc) sc 0)
            (get_listp h (GET_SIZE h (HDRP bp))) = sc := by
          simp only [SET_PRED, PREDP]
          rw [GET_HEAD_putWord_of_far _ _ _ _ (by omega)]
          exact GET_HEAD_SET_HEAD_self h _ sc
            (Or.inr ⟨by omega, hsc.2⟩)
        have hsuccs : ∀ y ∈ sc :: t, GET_SUCC (SET_PRED (SET_HEAD h
            (get_listp h (GET_SIZE h (HDRP bp))) sc) sc 0) y =
            GET_SUCC h y := by
          intro y hy
          have hymem : y ∈ ([] : List Nat) ++ bp :: sc :: t := by simp [hy]
          have hyb := hnode y hymem
          have hysc : y = sc ∨ (y + 12 ≤ sc ∨ sc + 12 ≤ y) := by
            rcases eq_or_ne y sc with he | hne
            · exact Or.inl he
            · exact Or.inr (hfar y hymem sc hscmem hne)
          simp only [SET_PRED, SET_HEAD, PREDP]
          rw [GET_SUCC_putWord_of_far _ _ _ _ (by omega),
            GET_SUCC_putWord_of_far _ _ _ _ (by omega)]
        rw [List.nil_append, chainB, chainSegB_cons_iff]
        refine ⟨hgh, by omega, ?_⟩
        have hc3 : chainSegB h t (GET_SUCC h sc) 0 := hcl2.2.2
        rw [hsuccs sc (by simp),
          chainSegB_congr h _ t (GET_SUCC h sc) 0
            (fun y hy => hsuccs y (by simp [hy]))]
        exact hc3
      · -- dual is sc :: t from 0
        rw [List.nil_append, dualSegB_cons_iff]
        constructor
        · exact GET_PRED_SET_PRED_self _ sc 0 (Or.inl rfl)
        · have hpreds : ∀ y ∈ t, GET_PRED (SET_PRED (SET_HEAD h
              (get_listp h (GET_SIZE h (HDRP bp))) sc) sc 0) y =
              GET_PRED h y := by
            intro y hy
            have hymem : y ∈ ([] : List Nat) ++ bp :: sc :: t := by
              simp [hy]
            have hyb := hnode y hymem
            have hpwl2 : List.Pairwise (fun a b => farB a b = true)
                (sc :: t) := (List.pairwise_cons.mp hpwsp.2.1).2
            have hysc := farB_bounds _ _
              ((List.pairwise_cons.mp hpwl2).1 y hy)
            simp only [SET_PRED, SET_HEAD, PREDP]
            rw [GET_PRED_putWord_of_far _ _ _ _ (by omega),
              GET_PRED_putWord_of_far _ _ _ _ (by omega)]
          rw [dualSegB_congr h _ t sc hpreds]
          exact hdt
  · -- l1 ends in pr: bp has a real predecessor.
    rw [List.concat_eq_append] at hl1eq
    subst hl1eq
    have hpredpr : GET_PRED h bp = pr := by
      rw [hpred, lastOf_concat]
    have hprmem : pr ∈ (l1'' ++ [pr]) ++ bp :: l2 := by simp
    have hpr := hnode pr hprmem
    have hfprbp := farB_bounds _ _ (hpwsp.2.2 pr (by simp) bp (by simp))
    have hchl1 := chainSegB_split h l1'' [pr]
      (GET_HEAD h (get_listp h (GET_SIZE h (HDRP bp)))) bp hcl1
    rw [show entryOf [pr] bp = pr from rfl] at hchl1
    have hcl1'' := hchl1.1
    have hprsucc : GET_SUCC h pr = bp := by
      have h2 := hchl1.2
      rw [chainSegB_cons_iff] at h2
      have h3 := h2.2.2
      rw [chainSegB_nil_iff] at h3
      exact h3
    have hpwl1 := List.pairwise_append.mp hpwsp.1
    have hfar_l1_pr : ∀ y ∈ l1'', y + 12 ≤ pr ∨ pr + 12 ≤ y :=
      fun y hy => farB_bounds _ _ (hpwl1.2.2 y hy pr (by simp))
    cases l2 with
    | nil =>
      have hsucc0 : GET_SUCC h bp = 0 := by
        rw [chainSegB_nil_iff] at hcl2; exact hcl2
      rw [remove_from_free_list_run,
        if_neg (fun hc => by omega), if_neg (fun hc => by omega),
        if_pos ⟨by omega, hsucc0⟩, hpredpr]
      refine ⟨by simp [SET_SUCC], by simp [SET_SUCC], by simp [SET_SUCC],
        ?_, ?_, ?_⟩
      · intro p hp1 hp2
        have hppr := hp2 pr hprmem
        simp only [SET_SUCC, SUCCP]
        rw [getWord_putWord_of_far _ _ _ _ (by omega)]
      · -- chain is l1'' ++ [pr]
        have hgh : GET_HEAD (SET_SUCC h pr 0)
            (get_listp h (GET_SIZE h (HDRP bp))) =
            GET_HEAD h (get_listp h (GET_SIZE h (HDRP bp))) := by
          simp only [SET_SUCC, SUCCP]
          rw [GET_HEAD_putWord_of_far _ _ _ _ (by omega)]
        have hsuccl1 : ∀ y ∈ l1'', GET_SUCC (SET_SUCC h pr 0) y =
            GET_SUCC h y := by
          intro y hy
          have hypr := hfar_l1_pr y hy
          simp only [SET_SUCC, SUCCP]
          rw [GET_SUCC_putWord_of_far _ _ _ _ (by omega)]
        rw [List.append_nil, chainB, hgh]
        refine chainSegB_append _ l1'' [pr] _ pr 0
          (by rw [chainSegB_congr h _ l1'' _ pr hsuccl1]; exact hcl1'')
          ?_
        rw [chainSegB_cons_iff]
        refine ⟨rfl, by omega, ?_⟩
        rw [chainSegB_nil_iff]
        exact GET_SUCC_SET_SUCC_self h pr 0 (Or.inl rfl)
      · -- dual is l1'' ++ [pr] from 0
        have hpreds : ∀ y ∈ l1'' ++ [pr],
            GET_PRED (SET_SUCC h pr 0) y = GET_PRED h y := by
          intro y hy
          have hymem : y ∈ (l1'' ++ [pr]) ++ bp :: ([] : List Nat) := by
            simp at hy ⊢; tauto
          have hyb := hnode y hymem
          have hypr : y = pr ∨ (y + 12 ≤ pr ∨ pr + 12 ≤ y) := by
            rcases eq_or_ne y pr with he | hne
            · exact Or.inl he
            · exact Or.inr (hfar y hymem pr hprmem hne)
          simp only [SET_SUCC, SUCCP]
          rw [GET_PRED_putWord_of_far _ _ _ _ (by omega)]
        rw [List.append_nil, dualSegB_congr h _ (l1'' ++ [pr]) 0 hpreds]
        exact hdl1
    | cons sc t =>
      rw [chainSegB_cons_iff] at hcl2
      have hsucceq : GET_SUCC h bp = sc := hcl2.1
      have hscmem : sc ∈ (l1'' ++ [pr]) ++ bp :: sc :: t := by simp
      have hsc := hnode sc hscmem
      have hfbpsc := farB_bounds _ _
        ((List.pairwise_cons.mp hpwsp.2.1).1 sc (by simp))
      have hfprsc := farB_bounds _ _
        (hpwsp.2.2 pr (by simp) sc (by simp))
      rw [dualSegB_cons_iff] at hdl2
      have hdt : dualSegB h t sc = true := hdl2.2
      rw [remove_from_free_list_run,
        if_neg (fun hc => by omega), if_neg (fun hc => by omega),
        if_neg (fun hc => by omega), hpredpr, hsucceq]
      refine ⟨by simp [SET_SUCC, SET_PRED], by simp [SET_SUCC, SET_PRED],
        by simp [SET_SUCC, SET_PRED], ?_, ?_, ?_⟩
      · intro p hp1 hp2
        have hppr := hp2 pr hprmem
        have hpsc := hp2 sc hscmem
        simp only [SET_SUCC, SET_PRED, SUCCP, PREDP]
        rw [getWord_putWord_of_far _ _ _ _ (by omega),
          getWord_putWord_of_far _ _ _ _ (by omega)]
      · -- chain is l1'' ++ [pr] ++ sc :: t
        have hgh : GET_HEAD (SET_PRED (SET_SUCC h pr sc) sc pr)
            (get_listp h (GET_SIZE h (HDRP bp))) =
            GET_HEAD h (get_listp h (GET_SIZE h (HDRP bp))) := by
          simp only [SET_SUCC, SET_PRED, SUCCP, PREDP]
          rw [GET_HEAD_putWord_of_far _ _ _ _ (by omega),
            GET_HEAD_putWord_of_far _ _ _ _ (by omega)]
        have hsuccl1 : ∀ y ∈ l1'',
            GET_SUCC (SET_PRED (SET_SUCC h pr sc) sc pr) y =
            GET_SUCC h y := by
          intro y hy
          have hymem : y ∈ (l1'' ++ [pr]) ++ bp :: sc :: t := by
            simp [hy]
          have hyb := hnode y hymem
          have hypr := hfar_l1_pr y hy
          have hysc : y = sc ∨ (y + 12 ≤ sc ∨ sc + 12 ≤ y) := by
            rcases eq_or_ne y sc with he | hne
            · exact Or.inl he
            · exact Or.inr (hfar y hymem sc hscmem hne)
          simp only [SET_SUCC, SET_PRED, SUCCP, PREDP]
          rw [GET_SUCC_putWord_of_far _ _ _ _ (by omega),
            GET_SUCC_putWord_of_far _ _ _ _ (by omega)]
        have hsuccpr : GET_SUCC (SET_PRED (SET_SUCC h pr sc) sc pr) pr
            = sc := by
          simp only [SET_PRED, PREDP]
          rw [GET_SUCC_putWord_of_far _ _ _ _ (by omega)]
          exact GET_SUCC_SET_SUCC_self h pr sc
            (Or.inr ⟨by omega, hsc.2⟩)
        have hsuccs : ∀ y ∈ sc :: t,
            GET_SUCC (SET_PRED (SET_SUCC h pr sc) sc pr) y =
            GET_SUCC h y := by
          intro y hy
          have hymem : y ∈ (l1'' ++ [pr]) ++ bp :: sc :: t := by
            simp [hy]
          have hyb := hnode y hymem
          have hysc : y = sc ∨ (y + 12 ≤ sc ∨ sc + 12 ≤ y) := by
            rcases eq_or_ne y sc with he | hne
            · exact Or.inl he
            · exact Or.inr (hfar y hymem sc hscmem hne)
          have hypr := farB_bounds _ _
            (hpwsp.2.2 pr (by simp) y (by simp [hy]))
          simp only [SET_SUCC, SET_PRED, SUCCP, PREDP]
          rw [GET_SUCC_putWord_of_far _ _ _ _ (by omega),
            GET_SUCC_putWord_of_far _ _ _ _ (by omega)]
        rw [List.append_assoc, chainB, hgh]
        refine chainSegB_append _ l1'' ([pr] ++ sc :: t) _ pr 0
          (by rw [chainSegB_congr h _ l1'' _ pr hsuccl1]; exact hcl1'')
          ?_
        refine chainSegB_append _ [pr] (sc :: t) pr sc 0 ?_ ?_
        · rw [chainSegB_cons_iff]
          refine ⟨rfl, by omega, ?_⟩
          rw [hsuccpr, chainSegB_nil_iff]
        · rw [chainSegB_cons_iff]
          refine ⟨rfl, by omega, ?_⟩
          rw [hsuccs sc (by simp),
            chainSegB_congr h _ t (GET_SUCC h sc) 0
              (fun y hy => hsuccs y (by simp [hy]))]
          exact hcl2.2.2
      · -- dual is (l1'' ++ [pr]) ++ sc :: t from 0
        have hpreds1 : ∀ y ∈ l1'' ++ [pr],
            GET_PRED (SET_PRED (SET_SUCC h pr sc) sc pr) y =
            GET_PRED h y := by
          intro y hy
          have hymem : y ∈ (l1'' ++ [pr]) ++ bp :: sc :: t := by
            simp at hy ⊢; tauto
          have hyb := hnode y hymem
          have hysc : y = sc ∨ (y + 12 ≤ sc ∨ sc + 12 ≤ y) := by
            rcases eq_or_ne y sc with he | hne
            · exact Or.inl he
            · exact Or.inr (hfar y hymem sc hscmem hne)
          have hyprmem : y ∈ (l1'' ++ [pr]) := hy
          have hypr : y = pr ∨ (y + 12 ≤ pr ∨ pr + 12 ≤ y) := by
            rcases eq_or_ne y pr with he | hne
            · exact Or.inl he
            · exact Or.inr (hfar y hymem pr hprmem hne)
          have hscnl1 : y ≠ sc := by
            intro he
            have hb := farB_bounds _ _ (hpwsp.2.2 y hy sc (by simp))
            omega
          simp only [SET_SUCC, SET_PRED, SUCCP, PREDP]
          rw [GET_PRED_putWord_of_far _ _ _ _ ?hc1,
            GET_PRED_putWord_of_far _ _ _ _ (by omega)]
          case hc1 =>
            rcases hysc with he | hf
            · exact absurd he hscnl1
            · omega
        have hpredsc : GET_PRED (SET_PRED (SET_SUCC h pr sc) sc pr) sc
            = pr :=
          GET_PRED_SET_PRED_self _ sc pr
            (Or.inr ⟨show h.heapListp < pr by omega, hpr.2⟩)
        have hpredst : ∀ y ∈ t,
            GET_PRED (SET_PRED (SET_SUCC h pr sc) sc pr) y =
            GET_PRED h y := by
          intro y hy
          have hymem : y ∈ (l1'' ++ [pr]) ++ bp :: sc :: t := by
            simp [hy]
          have hyb := hnode y hymem
          have hpwl2 : List.Pairwise (fun a b => farB a b = true)
              (sc :: t) := by
            have := (List.pairwise_cons.mp hpwsp.2.1).2
            exact this
          have hysc := farB_bounds _ _
            ((List.pairwise_cons.mp hpwl2).1 y hy)
          have hypr : y = pr ∨ (y + 12 ≤ pr ∨ pr + 12 ≤ y) := by
            rcases eq_or_ne y pr with he | hne
            · exact Or.inl he
            · exact Or.inr (hfar y hymem pr hprmem hne)
          have hynpr : y ≠ pr := by
            intro he
            have hb := farB_bounds _ _ (hpwsp.2.2 pr (by simp) y (by simp [hy]))
            omega
          simp only [SET_SUCC, SET_PRED, SUCCP, PREDP]
          rw [GET_PRED_putWord_of_far _ _ _ _ (by omega),
            GET_PRED_putWord_of_far _ _ _ _ ?hc2]
          case hc2 =>
            rcases hypr with he | hf
            · exact absurd he hynpr
            · omega
        refine dualSegB_append _ (l1'' ++ [pr]) (sc :: t) 0 ?_ ?_
        · rw [dualSegB_congr h _ (l1'' ++ [pr]) 0 hpreds1]
          exact hdl1
        · rw [lastOf_concat, dualSegB_cons_iff]
          refine ⟨hpredsc, ?_⟩
          rw [dualSegB_congr h _ t sc hpredst]
          exact hdt

/-- GET_HEAD only depends on the stored word and on heap_listp. -/
theorem GET_HEAD_congr (h h2 : Heap) (p : Nat)
    (hl : h2.heapListp = h.heapListp)
    (hw : getWord h2 p = getWord h p) :
    GET_HEAD h2 p = GET_HEAD h p := by
  unfold GET_HEAD REL2ABS
  rw [hw, hl]

/-- GET_SUCC only depends on the stored word and on heap_listp. -/
theorem GET_SUCC_congr (h h2 : Heap) (y : Nat)
    (hl : h2.heapListp = h.heapListp)
    (hw : getWord h2 (SUCCP y) = getWord h (SUCCP y)) :
    GET_SUCC h2 y = GET_SUCC h y := by
  unfold GET_SUCC REL2ABS
  rw [hw, hl]

/-- Reduction of `place` in the splitting branch, with the intermediate
heaps of the source statements named by equations. -/
theorem place_run (fuel : Nat) (h : Heap) (bp asize : Nat)
    (h1 h2 h3 h4 h5 hr : Heap)
    (e1 : h1 = remove_from_free_list h bp)
    (e2 : h2 = putWord h1 (HDRP bp) (PACK asize 1))
    (e3 : h3 = putWord h2 (FTRP h2 bp) (PACK asize 1))
    (e4 : h4 = putWord h3 (HDRP (NEXT_BLKP h3 bp))
      (PACK (GET_SIZE h (HDRP bp) - asize) 0))
    (e5 : h5 = putWord h4 (FTRP h4 (NEXT_BLKP h3 bp))
      (PACK (GET_SIZE h (HDRP bp) - asize) 0))
    (hc : 16 ≤ GET_SIZE h (HDRP bp) - asize)
    (hins : insert_to_free_list fuel h5 (NEXT_BLKP h3 bp) = some hr) :
    place fuel h bp asize = some (bp, hr) := by
  subst e5; subst e4; subst e3; subst e2; subst e1
  simp only [place]
  rw [if_pos hc, hins]
  rfl

/-- Reduction of `place` in the whole-block branch. -/
theorem place_run_else (fuel : Nat) (h : Heap) (bp asize : Nat)
    (h1 h2 h3 : Heap)
    (e1 : h1 = remove_from_free_list h bp)
    (e2 : h2 = putWord h1 (HDRP bp) (PACK (GET_SIZE h (HDRP bp)) 1))
    (e3 : h3 = putWord h2 (FTRP h2 bp) (PACK (GET_SIZE h (HDRP bp)) 1))
    (hc : ¬ 16 ≤ GET_SIZE h (HDRP bp) - asize) :
    place fuel h bp asize = some (bp, h3) := by
  subst e3; subst e2; subst e1
  simp only [place]
  rw [if_neg hc]
  rfl

/-!
Theorems for the claims.
-/

/-- C1 (counterexample): realloc does not copy
`min(oldPayloadSize, size)` bytes, as the spec sentence states: it
copies `min(oldBlockSize, size)` bytes, where the block size includes
the 8 bytes of header/footer overhead.  On p = allocate(8) (block size
16, payload 8) followed by reallocate(p, 24), the code copies 16
bytes — the 8 payload bytes, then the old footer `PACK(16,1)` = 17
and the next block header `PACK(32,1)` = 33 — whereas the spec-modelled
copy of min(8, 24) = 8 bytes leaves the next 8 bytes of the new
payload untouched (byte 170 of the never-written backing memory). -/
theorem realloc_copy_count_spec_mismatch :
    (reallocSmall mm_realloc).map (fun x => readBytes x.2 x.1 16) =
      some [1, 2, 3, 4, 5, 6, 7, 8, 17, 0, 0, 0, 33, 0, 0, 0] ∧
    (reallocSmall realloc_specCopy).map (fun x => readBytes x.2 x.1 16) =
      some [1, 2, 3, 4, 5, 6, 7, 8, 170, 170, 170, 170, 170, 170, 170, 170] ∧
    (reallocSmall mm_realloc).map (fun x => readBytes x.2 x.1 16) ≠
      (reallocSmall realloc_specCopy).map (fun x => readBytes x.2 x.1 16) := by
  decide

/-- C1 (amended): on success realloc copies `min(oldBlockSize, size)`
bytes from the old payload address (oldBlockSize = oldPayloadSize + 8,
so in particular the first `min(oldPayloadSize, size)` bytes of the new
payload equal the old payload), releases the old block and returns the
new pointer.  In the concrete scenario p = allocate(100) (block size
112 at address 1096), write pattern100, q = reallocate(p, 200): q is
the new pointer 1208, the first 100 bytes at q are the pattern, the
next 12 bytes show that exactly 112 bytes were copied (4 bytes of
untouched payload padding 170, the old footer `PACK(112,1)` = 113, and
the old neighbour header bytes), and the old block is free again
(size 112, allocated bit 0). -/
theorem realloc_copy_scenario :
    (reallocScenario.map fun x =>
        (x.1, x.2.1, readBytes x.2.2 x.2.1 100,
         readBytes x.2.2 (x.2.1 + 100) 12,
         GET_SIZE x.2.2 (HDRP x.1), GET_ALLOC x.2.2 (HDRP x.1))) =
      some (1096, 1208, pattern100,
        [170, 170, 170, 170, 113, 0, 0, 0, 209, 0, 0, 0], 112, 0) := by
  decide

/-- C2 (code bug): when the underlying allocation fails, calloc does
not just return a failure result: it calls memset(NULL, 0, bytes).  On
a heap whose backing region is exhausted (capacity 328, all consumed
by init plus allocate(248)), allocateZeroed(10, 8) returns NULL, but
only after writing 80 zero bytes through the null pointer: the fault
flag is set and the 80 bytes at addresses 0..79 (outside the heap,
previously the unwritten value 170) have been zeroed. -/
theorem calloc_failure_null_write :
    (callocExhaustRun.map fun x =>
        (x.1, x.2.fault, x.2.mem 0, x.2.mem 79, x.2.mem 80)) =
      some (0, true, 0, 0, 170) ∧
    mem0 0 = 170 ∧ (startHeap 328).fault = false := by
  decide

/-- C3 (code bug): the boundary-tag invariant is violated by a
reachable state.  allocate(2^64 - 8) wraps in the 64-bit adjusted-size
computation (asize = 0), and place then writes the "footer" of the
0-sized block at bp - 8, which is the prologue footer: afterwards the
prologue block's header still encodes (size 8, allocated) while its
footer encodes (size 0, allocated). -/
theorem overflow_breaks_boundary_tags :
    (overflowRun.map fun x =>
        (x.1, GET_SIZE x.2 (HDRP x.2.heapListp),
         GET_ALLOC x.2 (HDRP x.2.heapListp),
         GET_SIZE x.2 (FTRP x.2 x.2.heapListp),
         GET_ALLOC x.2 (FTRP x.2 x.2.heapListp))) =
      some (1096, 8, 1, 0, 1) ∧ (8 : Nat) ≠ 0 := by
  decide

/-- C4 (code bug): a reachable state has two physically adjacent free
blocks after a release.  After a = allocate(16); b = allocate(16);
c = allocate(16); release(b); x = allocate(2^64 - 8) (wrapped adjusted
size 0: the code hands back b while leaving it free) and release(x),
coalesce reads the corrupted footer left at b - 8, merges b with
itself into a 48-byte free block, and never looks at the true
neighbours: the resulting free block at 1120 (size 48) is immediately
followed by the free block at 1168 (size 184). -/
theorem overflow_breaks_coalescing :
    (overflowFreeRun.map fun x =>
        (x.1, GET_ALLOC x.2 (HDRP x.1), GET_SIZE x.2 (HDRP x.1),
         NEXT_BLKP x.2 x.1,
         GET_ALLOC x.2 (HDRP (NEXT_BLKP x.2 x.1)),
         GET_SIZE x.2 (HDRP (NEXT_BLKP x.2 x.1)))) =
      some (1120, 0, 48, 1168, 0, 184) := by
  decide

/-- C5 (counterexample): the two-branch adjusted-size computation is
64-bit size_t arithmetic and does not equal
`max(16, roundUp8(size + 8))` for every size > 0: at
size = 2^64 - 8 the sum `size + 8 + 7` wraps to 7 and the code
computes adjusted size 0. -/
theorem asize_overflow_mismatch :
    ¬ ∀ size : Nat, 0 < size → asizeOf size = max 16 (roundUp8 (size + 8)) := by
  intro hAll
  have h := hAll bigSize (by decide)
  revert h
  decide

/-- C5 (amended): for every requested size with 0 < size and
size + 15 < 2^64 (no size_t wraparound), the code's two-branch
computation equals `max(16, roundUp8(size + 8))`. -/
theorem asize_formula (size : Nat) (h1 : 0 < size)
    (h2 : size + 15 < 18446744073709551616) :
    asizeOf size = max 16 (roundUp8 (size + 8)) := by
  unfold asizeOf roundUp8
  rw [Nat.mod_eq_of_lt h2, Nat.max_def]
  split_ifs <;> omega

/-- C5 (witness): the amended statement at size 100. -/
theorem asize_formula_witness :
    0 < 100 ∧ asizeOf 100 = max 16 (roundUp8 (100 + 8)) :=
  ⟨by decide, asize_formula 100 (by decide) (by decide)⟩

/-- C6 (code bug): on exhaustion, allocate and reallocate fail with
the heap left exactly as before (no byte written, brk unchanged, the
realloc'd block untouched), but allocateZeroed does not: it zeroes
`bytes` bytes through the null pointer before returning NULL.  All
three runs start from the same exhausted heap (capacity 328). -/
theorem exhaustion_calloc_mutates :
    (mallocExhaustRun.map fun x => (x.1, x.2.fault, x.2.mem 0, x.2.brk)) =
      some (0, false, 170, 1352) ∧
    (reallocExhaustRun.map fun x =>
        (x.1, x.2.fault, x.2.mem 0, x.2.brk,
         GET_SIZE x.2 (HDRP 1096), GET_ALLOC x.2 (HDRP 1096))) =
      some (0, false, 170, 1352, 256, 1) ∧
    (callocExhaustRun.map fun x => (x.1, x.2.fault, x.2.mem 0, x.2.brk)) =
      some (0, true, 0, 1352) ∧
    (fullHeap.map fun h => (h.fault, h.mem 0, h.brk)) =
      some (false, 170, 1352) := by
  decide

/-- C7 (counterexample): find_fit does not return a block of the first
non-empty class reached.  After allocate(32) and its release, class 4
is non-empty (head 1096, single block of size 40, successor NULL), the
adjusted size for allocate(56) is 64 — also class 4 — yet find_fit
answers 1160, a block of size 192 living in class 6: the non-empty
class 4 is scanned, contains no fitting block, and is skipped. -/
theorem find_fit_skips_nonempty_class :
    (classSkipRun.map fun x =>
        [x.1, x.2.1, asizeOf 56, classId (asizeOf 56),
         GET_HEAD x.2.2 (get_listp x.2.2 (asizeOf 56)),
         GET_SIZE x.2.2 (HDRP x.1), GET_SUCC x.2.2 x.1,
         GET_SIZE x.2.2 (HDRP x.2.1),
         classId (GET_SIZE x.2.2 (HDRP x.2.1))]) =
      some [1096, 1160, 64, 4, 1096, 40, 0, 192, 6] ∧ (4 : Nat) ≠ 6 := by
  decide

/-- C7 (amended): (1) find_fit starts at the class of the adjusted
size and scans classes upward, returning the first block of
sufficient size in scan order — equivalently, the first fitting block
of the first class, scanning upward, that contains one (a non-empty
class without a fitting block is skipped); (2) on a size-sorted class
list the block found is a member, fits, and is minimal among the
fitting blocks of its class; (3) insert_to_free_list keeps a class
list sorted: it splits the chain at the first node at least as large
as the new block and links the block there. -/
theorem find_fit_first_fitting_class :
    (∀ (h : Heap) (asize fuel : Nat) (L : Nat → List Nat),
      64 ≤ h.heapListp → 14 - classId asize < fuel →
      (∀ i, i < 14 →
        chainB h (L i) (GET_HEAD h (headSlot h i)) = true) →
      (∀ i, i < 14 → (L i).length + 14 < fuel) →
      find_fit fuel h asize =
        some (firstFit h asize
          (concatFrom L (classId asize) (14 - classId asize)))) ∧
    (∀ (h : Heap) (asize : Nat) (l : List Nat),
      sortedSizesB h l = true → firstFit h asize l ≠ 0 →
      firstFit h asize l ∈ l ∧
        asize ≤ GET_SIZE h (HDRP (firstFit h asize l)) ∧
        ∀ y ∈ l, asize ≤ GET_SIZE h (HDRP y) →
          GET_SIZE h (HDRP (firstFit h asize l)) ≤ GET_SIZE h (HDRP y)) ∧
    (∀ (h : Heap) (fuel bp : Nat) (l : List Nat),
      64 ≤ h.heapListp → nodesOkB h (bp :: l) = true →
      chainB h l
        (GET_HEAD h (get_listp h (GET_SIZE h (HDRP bp)))) = true →
      l.length < fuel → sortedSizesB h l = true →
      ∃ h' l1 l2, insert_to_free_list fuel h bp = some h' ∧
        l = l1 ++ l2 ∧
        chainB h' (l1 ++ bp :: l2)
          (GET_HEAD h' (get_listp h (GET_SIZE h (HDRP bp)))) = true ∧
        sortedSizesB h' (l1 ++ bp :: l2) = true) := by
  refine ⟨fun h asize fuel L hlp hkf hch hlen =>
      find_fit_eq h asize fuel L hlp hkf hch hlen, ?_, ?_⟩
  · intro h asize l hs hne
    obtain ⟨h1, h2⟩ := firstFit_mem_fit h asize l hne
    exact ⟨h1, h2, firstFit_min_sorted h asize l hs⟩
  · intro h fuel bp l hlp hok hch hf hs
    obtain ⟨h', l1, l2, hrun, hsplit, hlp', hbrk, hsbrk, hframe,
      hchain, hsz1, hsz2⟩ := insert_spec h fuel bp l hlp hok hch hf
    have hheadp : get_listp h (GET_SIZE h (HDRP bp)) + 12 ≤
        h.heapListp := by
      unfold get_listp
      have := classId_le (GET_SIZE h (HDRP bp))
      omega
    have hframe_sz : ∀ y ∈ bp :: l,
        GET_SIZE h' (HDRP y) = GET_SIZE h (HDRP y) := by
      intro y hy
      have hyb := goodNodeB_bounds _ _ (nodesOkB_mem _ _ hok y hy)
      unfold GET_SIZE HDRP
      rw [hframe (y - 4) (by omega) ?_]
      intro z hz
      rcases eq_or_ne z y with rfl | hne
      · omega
      · have := farB_bounds _ _ (nodesOkB_far_of_mem h _ hok hz hy hne)
        omega
    refine ⟨h', l1, l2, hrun, hsplit, hchain, ?_⟩
    rw [sortedSizesB_congr h h' (l1 ++ bp :: l2) ?_]
    · refine sortedSizesB_insert_mid h bp l1 l2 ?_ hsz1 hsz2
      rw [← hsplit]
      exact hs
    · intro y hy
      refine hframe_sz y ?_
      rcases List.mem_append.mp hy with hy1 | hy2
      · refine List.mem_cons_of_mem bp ?_
        rw [hsplit]
        exact List.mem_append.mpr (Or.inl hy1)
      · rcases List.mem_cons.mp hy2 with he | hy3
        · rw [he]
          exact List.mem_cons_self bp l
        · refine List.mem_cons_of_mem bp ?_
          rw [hsplit]
          exact List.mem_append.mpr (Or.inr hy3)

/-- C7 (witness): the amended statement instantiated on the
initialized heap: a find_fit search for adjusted size 24 on the
initial chains, a minimality instance on the class-6 list, and an
insert of the crafted free block 2004 into its (empty) class list. -/
theorem find_fit_first_fitting_class_witness :
    (64 ≤ witnessHeap.heapListp ∧
      find_fit 200 witnessHeap 24 =
        some (firstFit witnessHeap 24
          (concatFrom witnessL (classId 24) (14 - classId 24)))) ∧
    (firstFit witnessHeap 24 [1096] ∈ [1096] ∧
      24 ≤ GET_SIZE witnessHeap (HDRP (firstFit witnessHeap 24 [1096])) ∧
      ∀ y ∈ [1096], 24 ≤ GET_SIZE witnessHeap (HDRP y) →
        GET_SIZE witnessHeap (HDRP (firstFit witnessHeap 24 [1096])) ≤
          GET_SIZE witnessHeap (HDRP y)) ∧
    (∃ h' l1 l2, insert_to_free_list 200 witnessHeap2 2004 = some h' ∧
      ([] : List Nat) = l1 ++ l2 ∧
      chainB h' (l1 ++ 2004 :: l2)
        (GET_HEAD h' (get_listp witnessHeap2
          (GET_SIZE witnessHeap2 (HDRP 2004)))) = true ∧
      sortedSizesB h' (l1 ++ 2004 :: l2) = true) :=
  ⟨⟨by decide, find_fit_first_fitting_class.1 witnessHeap 24 200 witnessL
      (by decide) (by decide) (by decide) (by decide)⟩,
    find_fit_first_fitting_class.2.1 witnessHeap 24 [1096]
      (by decide) (by decide),
    find_fit_first_fitting_class.2.2 witnessHeap2 200 2004 []
      (by decide) (by decide) (by decide) (by decide) (by decide)⟩

/-- C9: in the scenario a = allocate(16); b = allocate(16); release(a);
c = allocate(16), the final allocation returns exactly a's address
(1096) and the sbrk request counter still shows only the two requests
made by init: no heap growth was requested by any of the four calls. -/
theorem alloc_free_alloc_reuse :
    reuseRun = some (1096, 1120, 1096, 2) ∧
    (initRun 100000).map (fun h => h.sbrkCalls) = some 2 := by
  decide

/-- C10 (code bug): a reachable state violates the doubly-linked
consistency of the class lists.  In `overflowLinkRun`, the final
release re-inserts block 1120 into class 2 (making it the stored head)
and coalesce then moves it into class 4 behind block 1168, without
ever clearing the class-2 head slot: afterwards the block stored as
class 2's head (1120) has predecessor field 1168 ≠ NULL. -/
theorem overflow_breaks_free_list_links :
    (overflowLinkRun.map fun x =>
        (x.1, x.2.1, GET_HEAD x.2.2 (x.2.2.heapListp + 4 * 2 - 64),
         GET_PRED x.2.2 x.1, GET_SUCC x.2.2 x.1)) =
      some (1120, 1168, 1120, 1168, 0) ∧ (1168 : Nat) ≠ 0 := by
  decide

set_option maxHeartbeats 1000000 in
/-- Splitting branch of `place`: the block is removed, both halves get
their boundary tags, and the remainder is inserted into its own class
(pre-state list m). -/
theorem place_split_case (h : Heap) (fuel bp asize csize : Nat)
    (l1 l2 m : List Nat)
    (hlp : 64 ≤ h.heapListp)
    (hcs : GET_SIZE h (HDRP bp) = csize)
    (ha8 : asize % 8 = 0) (hc8 : csize % 8 = 0)
    (ha16 : 16 ≤ asize) (hac : asize ≤ csize)
    (hcsz : csize < 4294967296)
    (hbnd : bp + csize - h.heapListp < 4294967296)
    (hok : nodesOkB h (l1 ++ bp :: l2) = true)
    (hch : chainB h (l1 ++ bp :: l2) (GET_HEAD h (get_listp h csize)) = true)
    (hdual : dualSegB h (l1 ++ bp :: l2) 0 = true)
    (hblk : ∀ y ∈ l1 ++ l2 ++ m, y + 12 ≤ bp ∨ bp + csize ≤ y)
    (hm : (get_listp h (csize - asize) = get_listp h csize ∧ m = l1 ++ l2) ∨
      ((get_listp h (csize - asize) + 4 ≤ get_listp h csize ∨
        get_listp h csize + 4 ≤ get_listp h (csize - asize)) ∧
       nodesOkB h ((l1 ++ bp :: l2) ++ m) = true ∧
       chainB h m (GET_HEAD h (get_listp h (csize - asize))) = true))
    (hf : m.length < fuel)
    (hsp : 16 ≤ csize - asize) :
    ∃ hr, place fuel h bp asize = some (bp, hr) ∧
      hr.heapListp = h.heapListp ∧ hr.brk = h.brk ∧
      hr.sbrkCalls = h.sbrkCalls ∧
      GET_SIZE hr (HDRP bp) = asize ∧ GET_ALLOC hr (HDRP bp) = 1 ∧
      GET_SIZE hr (FTRP hr bp) = asize ∧
      GET_ALLOC hr (FTRP hr bp) = 1 ∧
      NEXT_BLKP hr bp = bp + asize ∧
      GET_SIZE hr (HDRP (bp + asize)) = csize - asize ∧
      GET_ALLOC hr (HDRP (bp + asize)) = 0 ∧
      GET_SIZE hr (FTRP hr (bp + asize)) = csize - asize ∧
      GET_ALLOC hr (FTRP hr (bp + asize)) = 0 ∧
      (∃ m1 m2, m = m1 ++ m2 ∧
        chainB hr (m1 ++ (bp + asize) :: m2)
          (GET_HEAD hr (get_listp hr (csize - asize))) = true) ∧
      (m = l1 ++ l2 ∨
        chainB hr (l1 ++ l2) (GET_HEAD hr (get_listp hr csize)) = true) := by
  have hbp := goodNodeB_bounds _ _ (nodesOkB_mem _ _ hok bp (by simp))
  have hheadB : get_listp h csize + 12 ≤ h.heapListp := by
    unfold get_listp
    have := classId_le csize
    omega
  have hheadR : get_listp h (csize - asize) + 12 ≤ h.heapListp := by
    unfold get_listp
    have := classId_le (csize - asize)
    omega
  obtain ⟨hrl, hrb, hrs, hrframe, hrchain, _⟩ :=
    remove_spec h bp l1 l2 hlp hok (by rw [hcs]; exact hch) hdual
  rw [hcs] at hrframe hrchain
  obtain ⟨h1, e1⟩ : ∃ x, x = remove_from_free_list h bp := ⟨_, rfl⟩
  rw [← e1] at hrl hrb hrs hrframe hrchain
  have hmnode : ∀ y ∈ m, y + 12 ≤ bp ∨ bp + csize ≤ y := by
    intro y hy
    exact hblk y (by simp [hy])
  have hl12 : ∀ y ∈ l1 ++ l2, y + 12 ≤ bp ∨ bp + csize ≤ y := by
    intro y hy
    rcases List.mem_append.mp hy with h1m | h2m
    · exact hblk y (by simp [h1m])
    · exact hblk y (by simp [h2m])
  have hmem12 : ∀ y ∈ l1 ++ l2, y ∈ l1 ++ bp :: l2 := by
    intro y hy
    rcases List.mem_append.mp hy with h1m | h2m
    · exact List.mem_append.mpr (Or.inl h1m)
    · exact List.mem_append.mpr (Or.inr (List.mem_cons_of_mem bp h2m))
  obtain ⟨h2, e2⟩ : ∃ x, x = putWord h1 (HDRP bp) (PACK asize 1) :=
    ⟨_, rfl⟩
  have hpk1 : PACK asize 1 = asize + 1 := lor_one_of_mod8 asize ha8
  have e2x : h2 = putWord h1 (bp - 4) (asize + 1) := by
    rw [e2, hpk1]
    rfl
  have hhd2 : getWord h2 (bp - 4) = asize + 1 := by
    rw [e2x, getWord_putWord_self, Nat.mod_eq_of_lt (by omega)]
  have hsz2 : GET_SIZE h2 (HDRP bp) = asize := by
    show getWord h2 (bp - 4) / 8 * 8 = asize
    rw [hhd2]
    omega
  have hftr2 : FTRP h2 bp = bp + asize - 8 := by
    show bp + GET_SIZE h2 (HDRP bp) - 8 = bp + asize - 8
    rw [hsz2]
  obtain ⟨h3, e3⟩ : ∃ x, x = putWord h2 (FTRP h2 bp) (PACK asize 1) :=
    ⟨_, rfl⟩
  have e3x : h3 = putWord h2 (bp + asize - 8) (asize + 1) := by
    rw [e3, hftr2, hpk1]
  have hhd3 : getWord h3 (bp - 4) = asize + 1 := by
    rw [e3x, getWord_putWord_of_far _ _ _ _ (by omega)]
    exact hhd2
  have hnext3 : NEXT_BLKP h3 bp = bp + asize := by
    show bp + getWord h3 (bp - 4) / 8 * 8 = bp + asize
    rw [hhd3]
    omega
  obtain ⟨h4, e4⟩ : ∃ x, x = putWord h3 (HDRP (NEXT_BLKP h3 bp))
      (PACK (csize - asize) 0) := ⟨_, rfl⟩
  have hpk0 : PACK (csize - asize) 0 = csize - asize := lor_zero_eq _
  have e4x : h4 = putWord h3 (bp + asize - 4) (csize - asize) := by
    rw [e4, hnext3, hpk0]
    rfl
  have hrem4 : getWord h4 (bp + asize - 4) = csize - asize := by
    rw [e4x, getWord_putWord_self, Nat.mod_eq_of_lt (by omega)]
  have hsz4 : GET_SIZE h4 (HDRP (bp + asize)) = csize - asize := by
    show getWord h4 (bp + asize - 4) / 8 * 8 = csize - asize
    rw [hrem4]
    omega
  have hftr4 : FTRP h4 (NEXT_BLKP h3 bp) = bp + csize - 8 := by
    rw [hnext3]
    show bp + asize + GET_SIZE h4 (HDRP (bp + asize)) - 8 = bp + csize - 8
    rw [hsz4]
    omega
  obtain ⟨h5, e5⟩ : ∃ x, x = putWord h4 (FTRP h4 (NEXT_BLKP h3 bp))
      (PACK (csize - asize) 0) := ⟨_, rfl⟩
  have e5x : h5 = putWord h4 (bp + csize - 8) (csize - asize) := by
    rw [e5, hftr4, hpk0]
  have hl5 : h5.heapListp = h.heapListp := by
    rw [e5, e4, e3, e2]
    simp [hrl]
  have hb5 : h5.brk = h.brk := by
    rw [e5, e4, e3, e2]
    simp [hrb]
  have hs5 : h5.sbrkCalls = h.sbrkCalls := by
    rw [e5, e4, e3, e2]
    simp [hrs]
  have hl15 : h5.heapListp = h1.heapListp := by
    rw [hl5, hrl]
  have hframe15 : ∀ p, (p + 8 ≤ bp ∨ bp + csize - 4 ≤ p) →
      getWord h5 p = getWord h1 p := by
    intro p hp
    rw [e5x, getWord_putWord_of_far _ _ _ _ (by omega), e4x,
      getWord_putWord_of_far _ _ _ _ (by omega), e3x,
      getWord_putWord_of_far _ _ _ _ (by omega), e2x,
      getWord_putWord_of_far _ _ _ _ (by omega)]
  have hrem5 : getWord h5 (bp + asize - 4) = csize - asize := by
    rw [e5x, getWord_putWord_of_far _ _ _ _ (by omega)]
    exact hrem4
  have hsz5 : GET_SIZE h5 (HDRP (bp + asize)) = csize - asize := by
    show getWord h5 (bp + asize - 4) / 8 * 8 = csize - asize
    rw [hrem5]
    omega
  have hslot5 : get_listp h5 (csize - asize) =
      get_listp h (csize - asize) := by
    unfold get_listp
    rw [hl5]
  have hok5 : nodesOkB h5 ((bp + asize) :: m) = true := by
    rw [nodesOkB_heapListp h h5 _ hl5, nodesOkB_cons]
    refine ⟨?_, ?_, ?_⟩
    · simp only [goodNodeB, Bool.and_eq_true, decide_eq_true_eq]
      omega
    · intro y hy
      have := hmnode y hy
      simp only [farB, Bool.or_eq_true, decide_eq_true_eq]
      omega
    · rcases hm with ⟨hslots, hmeq⟩ | ⟨hne, hokall, hchm⟩
      · rw [hmeq]
        exact nodesOkB_sublist h _ _
          (List.Sublist.append_left (List.sublist_cons_self bp l2) l1) hok
      · exact nodesOkB_sublist h _ _ (List.sublist_append_right _ _) hokall
  have hsucc15 : ∀ y ∈ m, GET_SUCC h5 y = GET_SUCC h1 y := by
    intro y hy
    have := hmnode y hy
    exact GET_SUCC_congr h1 h5 y hl15 (hframe15 (y + 4) (by omega))
  have hhd15R : GET_HEAD h5 (get_listp h (csize - asize)) =
      GET_HEAD h1 (get_listp h (csize - asize)) :=
    GET_HEAD_congr h1 h5 _ hl15 (hframe15 _ (by omega))
  have hch1R : chainB h1 m (GET_HEAD h1 (get_listp h (csize - asize))) =
      true := by
    rcases hm with ⟨hslots, hmeq⟩ | ⟨hne, hokall, hchm⟩
    · rw [hslots, hmeq]
      exact hrchain
    · have hw : getWord h1 (get_listp h (csize - asize)) =
          getWord h (get_listp h (csize - asize)) := by
        refine hrframe _ ?_ ?_
        · rcases hne with hlt | hgt
          · exact Or.inl hlt
          · exact Or.inr hgt
        · intro y hy
          have hyg := goodNodeB_bounds _ _ (nodesOkB_mem _ _ hok y hy)
          left
          omega
      have hH : GET_HEAD h1 (get_listp h (csize - asize)) =
          GET_HEAD h (get_listp h (csize - asize)) :=
        GET_HEAD_congr h h1 _ hrl hw
      have hsucc01 : ∀ y ∈ m, GET_SUCC h1 y = GET_SUCC h y := by
        intro y hy
        have hymem : y ∈ (l1 ++ bp :: l2) ++ m := by simp [hy]
        have hyg := goodNodeB_bounds _ _ (nodesOkB_mem _ _ hokall y hymem)
        have hw2 : getWord h1 (y + 4) = getWord h (y + 4) := by
          refine hrframe (y + 4) (by omega) ?_
          intro z hz
          have hfzy := farB_bounds _ _
            ((List.pairwise_append.mp (nodesOkB_pair h _ hokall)).2.2
              z hz y hy)
          omega
        exact GET_SUCC_congr h h1 y hrl hw2
      rw [hH, chainB, chainSegB_congr h h1 m _ 0 hsucc01]
      exact hchm
  have hch5 : chainB h5 m (GET_HEAD h5 (get_listp h5
      (GET_SIZE h5 (HDRP (bp + asize))))) = true := by
    rw [hsz5, hslot5, hhd15R, chainB, chainSegB_congr h1 h5 m _ 0 hsucc15]
    exact hch1R
  have hlp5 : 64 ≤ h5.heapListp := by
    rw [hl5]
    exact hlp
  obtain ⟨h7, m1, m2, hins, hmsplit, hil, hib, his, hiframe, hichain,
    hso1, hso2⟩ := insert_spec h5 fuel (bp + asize) m hlp5 hok5 hch5 hf
  rw [hsz5, hslot5] at hiframe hichain
  have hl7 : h7.heapListp = h.heapListp := hil.trans hl5
  have hrun : place fuel h bp asize = some (bp, h7) :=
    place_run fuel h bp asize h1 h2 h3 h4 h5 h7 e1 e2 e3
      (by rw [hcs]; exact e4) (by rw [hcs]; exact e5)
      (by rw [hcs]; exact hsp) (by rw [hnext3]; exact hins)
  have hcnd1 : ∀ y ∈ (bp + asize) :: m, (bp - 4) + 4 ≤ y ∨
      y + 8 ≤ bp - 4 := by
    intro y hy
    rcases List.mem_cons.mp hy with rfl | hy2
    · omega
    · have := hmnode y hy2
      omega
  have hhd5 : getWord h5 (bp - 4) = asize + 1 := by
    rw [e5x, getWord_putWord_of_far _ _ _ _ (by omega), e4x,
      getWord_putWord_of_far _ _ _ _ (by omega)]
    exact hhd3
  have hw1 : getWord h7 (bp - 4) = asize + 1 := by
    rw [hiframe (bp - 4) (by omega) hcnd1]
    exact hhd5
  have hA1 : GET_SIZE h7 (HDRP bp) = asize := by
    show getWord h7 (bp - 4) / 8 * 8 = asize
    rw [hw1]
    omega
  have hA2 : GET_ALLOC h7 (HDRP bp) = 1 := by
    show getWord h7 (bp - 4) % 2 = 1
    rw [hw1]
    omega
  have hcnd2 : ∀ y ∈ (bp + asize) :: m, (bp + asize - 8) + 4 ≤ y ∨
      y + 8 ≤ bp + asize - 8 := by
    intro y hy
    rcases List.mem_cons.mp hy with rfl | hy2
    · omega
    · have := hmnode y hy2
      omega
  have hw2 : getWord h7 (bp + asize - 8) = asize + 1 := by
    rw [hiframe (bp + asize - 8) (by omega) hcnd2, e5x,
      getWord_putWord_of_far _ _ _ _ (by omega), e4x,
      getWord_putWord_of_far _ _ _ _ (by omega), e3x,
      getWord_putWord_self, Nat.mod_eq_of_lt (by omega)]
  have hftr7 : FTRP h7 bp = bp + asize - 8 := by
    show bp + GET_SIZE h7 (HDRP bp) - 8 = bp + asize - 8
    rw [hA1]
  have hA3 : GET_SIZE h7 (FTRP h7 bp) = asize := by
    rw [hftr7]
    show getWord h7 (bp + asize - 8) / 8 * 8 = asize
    rw [hw2]
    omega
  have hA4 : GET_ALLOC h7 (FTRP h7 bp) = 1 := by
    rw [hftr7]
    show getWord h7 (bp + asize - 8) % 2 = 1
    rw [hw2]
    omega
  have hA5 : NEXT_BLKP h7 bp = bp + asize := by
    show bp + getWord h7 (bp - 4) / 8 * 8 = bp + asize
    rw [hw1]
    omega
  have hcnd3 : ∀ y ∈ (bp + asize) :: m, (bp + asize - 4) + 4 ≤ y ∨
      y + 8 ≤ bp + asize - 4 := by
    intro y hy
    rcases List.mem_cons.mp hy with rfl | hy2
    · omega
    · have := hmnode y hy2
      omega
  have hw3 : getWord h7 (bp + asize - 4) = csize - asize := by
    rw [hiframe (bp + asize - 4) (by omega) hcnd3]
    exact hrem5
  have hA6 : GET_SIZE h7 (HDRP (bp + asize)) = csize - asize := by
    show getWord h7 (bp + asize - 4) / 8 * 8 = csize - asize
    rw [hw3]
    omega
  have hA7 : GET_ALLOC h7 (HDRP (bp + asize)) = 0 := by
    show getWord h7 (bp + asize - 4) % 2 = 0
    rw [hw3]
    omega
  have hcnd4 : ∀ y ∈ (bp + asize) :: m, (bp + csize - 8) + 4 ≤ y ∨
      y + 8 ≤ bp + csize - 8 := by
    intro y hy
    rcases List.mem_cons.mp hy with rfl | hy2
    · omega
    · have := hmnode y hy2
      omega
  have hw4 : getWord h7 (bp + csize - 8) = csize - asize := by
    rw [hiframe (bp + csize - 8) (by omega) hcnd4, e5x,
      getWord_putWord_self, Nat.mod_eq_of_lt (by omega)]
  have hftr7b : FTRP h7 (bp + asize) = bp + csize - 8 := by
    show bp + asize + GET_SIZE h7 (HDRP (bp + asize)) - 8 =
      bp + csize - 8
    rw [hA6]
    omega
  have hA8 : GET_SIZE h7 (FTRP h7 (bp + asize)) = csize - asize := by
    rw [hftr7b]
    show getWord h7 (bp + csize - 8) / 8 * 8 = csize - asize
    rw [hw4]
    omega
  have hA9 : GET_ALLOC h7 (FTRP h7 (bp + asize)) = 0 := by
    rw [hftr7b]
    show getWord h7 (bp + csize - 8) % 2 = 0
    rw [hw4]
    omega
  have hslot7R : get_listp h7 (csize - asize) =
      get_listp h (csize - asize) := by
    unfold get_listp
    rw [hl7]
  have hchR : chainB h7 (m1 ++ (bp + asize) :: m2)
      (GET_HEAD h7 (get_listp h7 (csize - asize))) = true := by
    rw [hslot7R]
    exact hichain
  have hrem : m = l1 ++ l2 ∨
      chainB h7 (l1 ++ l2) (GET_HEAD h7 (get_listp h7 csize)) = true := by
    rcases hm with ⟨hslots, hmeq⟩ | ⟨hne, hokall, hchm⟩
    · exact Or.inl hmeq
    · right
      have hslot7B : get_listp h7 csize = get_listp h csize := by
        unfold get_listp
        rw [hl7]
      have hhd15B : GET_HEAD h5 (get_listp h csize) =
          GET_HEAD h1 (get_listp h csize) :=
        GET_HEAD_congr h1 h5 _ hl15 (hframe15 _ (by omega))
      have hhd57B : GET_HEAD h7 (get_listp h csize) =
          GET_HEAD h5 (get_listp h csize) := by
        refine GET_HEAD_congr h5 h7 _ hil ?_
        refine hiframe _ ?_ ?_
        · rcases hne with hlt | hgt
          · exact Or.inr hlt
          · exact Or.inl hgt
        · intro y hy
          rcases List.mem_cons.mp hy with rfl | hy2
          · left
            omega
          · have hyg := goodNodeB_bounds _ _
              (nodesOkB_mem _ _ hokall y (by simp [hy2]))
            left
            omega
      have hsucc57 : ∀ y ∈ l1 ++ l2, GET_SUCC h7 y = GET_SUCC h5 y := by
        intro y hy
        have hyb := goodNodeB_bounds _ _
          (nodesOkB_mem _ _ hok y (hmem12 y hy))
        have hy12 := hl12 y hy
        have hw5 : getWord h7 (y + 4) = getWord h5 (y + 4) := by
          refine hiframe (y + 4) (by omega) ?_
          intro z hz
          rcases List.mem_cons.mp hz with rfl | hz2
          · omega
          · have hfyz := farB_bounds _ _
              ((List.pairwise_append.mp
                (nodesOkB_pair h _ hokall)).2.2
                y (by simp [hmem12 y hy]) z (by simp [hz2]))
            omega
        exact GET_SUCC_congr h5 h7 y hil hw5
      have hsucc15b : ∀ y ∈ l1 ++ l2,
          GET_SUCC h5 y = GET_SUCC h1 y := by
        intro y hy
        have hy12 := hl12 y hy
        exact GET_SUCC_congr h1 h5 y hl15 (hframe15 (y + 4) (by omega))
      rw [hslot7B, hhd57B, hhd15B, chainB,
        chainSegB_congr h1 h7 (l1 ++ l2) _ 0
          (fun y hy => (hsucc57 y hy).trans (hsucc15b y hy))]
      exact hrchain
  exact ⟨h7, hrun, hl7, hib.trans hb5, his.trans hs5, hA1, hA2, hA3, hA4,
    hA5, hA6, hA7, hA8, hA9, ⟨m1, m2, hmsplit, hchR⟩, hrem⟩

set_option maxHeartbeats 1000000 in
/-- Whole-block branch of `place`: the block is removed from its class
list and marked allocated with its full size. -/
theorem place_whole_case (h : Heap) (fuel bp asize csize : Nat)
    (l1 l2 : List Nat)
    (hlp : 64 ≤ h.heapListp)
    (hcs : GET_SIZE h (HDRP bp) = csize)
    (hc8 : csize % 8 = 0)
    (hc16 : 16 ≤ csize)
    (hcsz : csize < 4294967296)
    (hok : nodesOkB h (l1 ++ bp :: l2) = true)
    (hch : chainB h (l1 ++ bp :: l2) (GET_HEAD h (get_listp h csize)) = true)
    (hdual : dualSegB h (l1 ++ bp :: l2) 0 = true)
    (hbl2 : ∀ y ∈ l1 ++ l2, y + 12 ≤ bp ∨ bp + csize ≤ y)
    (hsp : ¬ 16 ≤ csize - asize) :
    ∃ hr, place fuel h bp asize = some (bp, hr) ∧
      hr.heapListp = h.heapListp ∧ hr.brk = h.brk ∧
      hr.sbrkCalls = h.sbrkCalls ∧
      GET_SIZE hr (HDRP bp) = csize ∧ GET_ALLOC hr (HDRP bp) = 1 ∧
      GET_SIZE hr (FTRP hr bp) = csize ∧
      GET_ALLOC hr (FTRP hr bp) = 1 ∧
      chainB hr (l1 ++ l2) (GET_HEAD hr (get_listp hr csize)) = true := by
  have hbp := goodNodeB_bounds _ _ (nodesOkB_mem _ _ hok bp (by simp))
  have hheadB : get_listp h csize + 12 ≤ h.heapListp := by
    unfold get_listp
    have := classId_le csize
    omega
  obtain ⟨hrl, hrb, hrs, hrframe, hrchain, _⟩ :=
    remove_spec h bp l1 l2 hlp hok (by rw [hcs]; exact hch) hdual
  rw [hcs] at hrframe hrchain
  obtain ⟨h1, e1⟩ : ∃ x, x = remove_from_free_list h bp := ⟨_, rfl⟩
  rw [← e1] at hrl hrb hrs hrframe hrchain
  obtain ⟨h2, e2⟩ : ∃ x, x = putWord h1 (HDRP bp) (PACK csize 1) :=
    ⟨_, rfl⟩
  have hpk1 : PACK csize 1 = csize + 1 := lor_one_of_mod8 csize hc8
  have e2x : h2 = putWord h1 (bp - 4) (csize + 1) := by
    rw [e2, hpk1]
    rfl
  have hhd2 : getWord h2 (bp - 4) = csize + 1 := by
    rw [e2x, getWord_putWord_self, Nat.mod_eq_of_lt (by omega)]
  have hsz2 : GET_SIZE h2 (HDRP bp) = csize := by
    show getWord h2 (bp - 4) / 8 * 8 = csize
    rw [hhd2]
    omega
  have hftr2 : FTRP h2 bp = bp + csize - 8 := by
    show bp + GET_SIZE h2 (HDRP bp) - 8 = bp + csize - 8
    rw [hsz2]
  obtain ⟨h3, e3⟩ : ∃ x, x = putWord h2 (FTRP h2 bp) (PACK csize 1) :=
    ⟨_, rfl⟩
  have e3x : h3 = putWord h2 (bp + csize - 8) (csize + 1) := by
    rw [e3, hftr2, hpk1]
  have hl3 : h3.heapListp = h.heapListp := by
    rw [e3, e2]
    simp [hrl]
  have hl13 : h3.heapListp = h1.heapListp := by
    rw [hl3, hrl]
  have hhd3 : getWord h3 (bp - 4) = csize + 1 := by
    rw [e3x, getWord_putWord_of_far _ _ _ _ (by omega)]
    exact hhd2
  have hrun : place fuel h bp asize = some (bp, h3) :=
    place_run_else fuel h bp asize h1 h2 h3 e1
      (by rw [hcs]; exact e2) (by rw [hcs]; exact e3)
      (by rw [hcs]; exact hsp)
  have hB1 : GET_SIZE h3 (HDRP bp) = csize := by
    show getWord h3 (bp - 4) / 8 * 8 = csize
    rw [hhd3]
    omega
  have hB2 : GET_ALLOC h3 (HDRP bp) = 1 := by
    show getWord h3 (bp - 4) % 2 = 1
    rw [hhd3]
    omega
  have hftr3 : FTRP h3 bp = bp + csize - 8 := by
    show bp + GET_SIZE h3 (HDRP bp) - 8 = bp + csize - 8
    rw [hB1]
  have hw2 : getWord h3 (bp + csize - 8) = csize + 1 := by
    rw [e3x, getWord_putWord_self, Nat.mod_eq_of_lt (by omega)]
  have hB3 : GET_SIZE h3 (FTRP h3 bp) = csize := by
    rw [hftr3]
    show getWord h3 (bp + csize - 8) / 8 * 8 = csize
    rw [hw2]
    omega
  have hB4 : GET_ALLOC h3 (FTRP h3 bp) = 1 := by
    rw [hftr3]
    show getWord h3 (bp + csize - 8) % 2 = 1
    rw [hw2]
    omega
  have hslot3B : get_listp h3 csize = get_listp h csize := by
    unfold get_listp
    rw [hl3]
  have hhd13B : GET_HEAD h3 (get_listp h csize) =
      GET_HEAD h1 (get_listp h csize) := by
    refine GET_HEAD_congr h1 h3 _ hl13 ?_
    rw [e3x, getWord_putWord_of_far _ _ _ _ (by omega), e2x,
      getWord_putWord_of_far _ _ _ _ (by omega)]
  have hsucc13 : ∀ y ∈ l1 ++ l2, GET_SUCC h3 y = GET_SUCC h1 y := by
    intro y hy
    have hy12 := hbl2 y hy
    have hwy : getWord h3 (y + 4) = getWord h1 (y + 4) := by
      rw [e3x, getWord_putWord_of_far _ _ _ _ (by omega), e2x,
        getWord_putWord_of_far _ _ _ _ (by omega)]
    exact GET_SUCC_congr h1 h3 y hl13 hwy
  have hchain3 : chainB h3 (l1 ++ l2)
      (GET_HEAD h3 (get_listp h3 csize)) = true := by
    rw [hslot3B, hhd13B, chainB,
      chainSegB_congr h1 h3 (l1 ++ l2) _ 0 hsucc13]
    exact hrchain
  exact ⟨h3, hrun, hl3, by rw [e3, e2]; simp [hrb],
    by rw [e3, e2]; simp [hrs], hB1, hB2, hB3, hB4, hchain3⟩

/-- C8: during placement the chosen free block bp (class list
l1 ++ bp :: l2, block size csize) is removed from its class list; if
csize - asize ≥ 16 the block is split: bp gets matching header and
footer tags (asize, allocated), the remainder at bp + asize gets
matching tags (csize - asize, free) and is inserted into the
remainder's own size class (pre-state list m, which is the removal
result l1 ++ l2 when the two classes coincide); otherwise the whole
block is marked allocated with its full size and the class list is
left at l1 ++ l2. -/
theorem place_spec (h : Heap) (fuel bp asize csize : Nat)
    (l1 l2 m : List Nat)
    (hlp : 64 ≤ h.heapListp)
    (hcs : GET_SIZE h (HDRP bp) = csize)
    (ha8 : asize % 8 = 0) (hc8 : csize % 8 = 0)
    (ha16 : 16 ≤ asize) (hac : asize ≤ csize)
    (hcsz : csize < 4294967296)
    (hbnd : bp + csize - h.heapListp < 4294967296)
    (hok : nodesOkB h (l1 ++ bp :: l2) = true)
    (hch : chainB h (l1 ++ bp :: l2) (GET_HEAD h (get_listp h csize)) = true)
    (hdual : dualSegB h (l1 ++ bp :: l2) 0 = true)
    (hblk : ∀ y ∈ l1 ++ l2 ++ m, y + 12 ≤ bp ∨ bp + csize ≤ y)
    (hm : (get_listp h (csize - asize) = get_listp h csize ∧ m = l1 ++ l2) ∨
      ((get_listp h (csize - asize) + 4 ≤ get_listp h csize ∨
        get_listp h csize + 4 ≤ get_listp h (csize - asize)) ∧
       nodesOkB h ((l1 ++ bp :: l2) ++ m) = true ∧
       chainB h m (GET_HEAD h (get_listp h (csize - asize))) = true))
    (hf : m.length < fuel) :
    ∃ hr, place fuel h bp asize = some (bp, hr) ∧
      hr.heapListp = h.heapListp ∧ hr.brk = h.brk ∧
      hr.sbrkCalls = h.sbrkCalls ∧
      (16 ≤ csize - asize →
        GET_SIZE hr (HDRP bp) = asize ∧ GET_ALLOC hr (HDRP bp) = 1 ∧
        GET_SIZE hr (FTRP hr bp) = asize ∧
        GET_ALLOC hr (FTRP hr bp) = 1 ∧
        NEXT_BLKP hr bp = bp + asize ∧
        GET_SIZE hr (HDRP (bp + asize)) = csize - asize ∧
        GET_ALLOC hr (HDRP (bp + asize)) = 0 ∧
        GET_SIZE hr (FTRP hr (bp + asize)) = csize - asize ∧
        GET_ALLOC hr (FTRP hr (bp + asize)) = 0 ∧
        (∃ m1 m2, m = m1 ++ m2 ∧
          chainB hr (m1 ++ (bp + asize) :: m2)
            (GET_HEAD hr (get_listp hr (csize - asize))) = true) ∧
        (m = l1 ++ l2 ∨
          chainB hr (l1 ++ l2) (GET_HEAD hr (get_listp hr csize)) = true)) ∧
      (csize - asize < 16 →
        GET_SIZE hr (HDRP bp) = csize ∧ GET_ALLOC hr (HDRP bp) = 1 ∧
        GET_SIZE hr (FTRP hr bp) = csize ∧
        GET_ALLOC hr (FTRP hr bp) = 1 ∧
        chainB hr (l1 ++ l2) (GET_HEAD hr (get_listp hr csize)) = true) := by
  by_cases hsp : 16 ≤ csize - asize
  · obtain ⟨hr, hrun, hp1, hp2, hp3, hA1, hA2, hA3, hA4, hA5, hA6, hA7,
      hA8, hA9, hEx, hRem⟩ := place_split_case h fuel bp asize csize
      l1 l2 m hlp hcs ha8 hc8 ha16 hac hcsz hbnd hok hch hdual hblk hm hf hsp
    exact ⟨hr, hrun, hp1, hp2, hp3,
      fun _ => ⟨hA1, hA2, hA3, hA4, hA5, hA6, hA7, hA8, hA9, hEx, hRem⟩,
      fun hlt => absurd hlt (by omega)⟩
  · obtain ⟨hr, hrun, hp1, hp2, hp3, hB1, hB2, hB3, hB4, hB5⟩ :=
      place_whole_case h fuel bp asize csize l1 l2 hlp hcs hc8
        (by omega) hcsz hok hch hdual
        (fun y hy => by
          rcases List.mem_append.mp hy with h1m | h2m
          · exact hblk y (by simp [h1m])
          · exact hblk y (by simp [h2m])) hsp
    exact ⟨hr, hrun, hp1, hp2, hp3,
      fun hge => absurd hge hsp,
      fun _ => ⟨hB1, hB2, hB3, hB4, hB5⟩⟩

/-- C8 (witness): the placement theorem instantiated on the freshly
initialized heap, splitting the single 256-byte free block of class 6
with an adjusted size of 16; the 240-byte remainder falls back into
the same class. -/
theorem place_spec_witness :
    ∃ hr, place 100 witnessHeap 1096 16 = some (1096, hr) ∧
      hr.heapListp = witnessHeap.heapListp ∧ hr.brk = witnessHeap.brk ∧
      hr.sbrkCalls = witnessHeap.sbrkCalls ∧
      (16 ≤ 256 - 16 →
        GET_SIZE hr (HDRP 1096) = 16 ∧ GET_ALLOC hr (HDRP 1096) = 1 ∧
        GET_SIZE hr (FTRP hr 1096) = 16 ∧
        GET_ALLOC hr (FTRP hr 1096) = 1 ∧
        NEXT_BLKP hr 1096 = 1096 + 16 ∧
        GET_SIZE hr (HDRP (1096 + 16)) = 256 - 16 ∧
        GET_ALLOC hr (HDRP (1096 + 16)) = 0 ∧
        GET_SIZE hr (FTRP hr (1096 + 16)) = 256 - 16 ∧
        GET_ALLOC hr (FTRP hr (1096 + 16)) = 0 ∧
        (∃ m1 m2, ([] : List Nat) = m1 ++ m2 ∧
          chainB hr (m1 ++ (1096 + 16) :: m2)
            (GET_HEAD hr (get_listp hr (256 - 16))) = true) ∧
        (([] : List Nat) = [] ++ [] ∨
          chainB hr ([] ++ [])
            (GET_HEAD hr (get_listp hr 256)) = true)) ∧
      (256 - 16 < 16 →
        GET_SIZE hr (HDRP 1096) = 256 ∧ GET_ALLOC hr (HDRP 1096) = 1 ∧
        GET_SIZE hr (FTRP hr 1096) = 256 ∧
        GET_ALLOC hr (FTRP hr 1096) = 1 ∧
        chainB hr ([] ++ [])
          (GET_HEAD hr (get_listp hr 256)) = true) :=
  place_spec witnessHeap 100 1096 16 256 [] [] []
    (by decide) (by decide) (by decide) (by decide) (by decide) (by decide)
    (by decide) (by decide) (by decide) (by decide) (by decide)
    (by simp) (Or.inl ⟨by decide, rfl⟩) (by decide)

end MM
